import Mathlib

/-!
Shallow embedding of the maneuver detection and scoring engine of
misunia/surf-smart-ai (`src/utils/TurnAnalyzer.ts`), together with proofs
about its geometry helpers, smoothing filter, scoring rubric and the
turn-detection finite state machine.

Conventions: JavaScript numbers are embedded as exact rationals (ℚ) where the
code only adds, subtracts, multiplies and compares, and as reals (ℝ) where it
uses `Math.sqrt` / `Math.acos` / `Math.atan2`.  `Math.atan2 y x` is embedded
as `Complex.arg ⟨x, y⟩`, which has the same range (-π, π] and the same value 0
at the origin.  JavaScript `null` becomes `Option.none`; the JavaScript
truthiness tests (`a || b`) applied to numbers are modelled with an explicit
comparison against 0, and when applied to objects by an `Option` match.
-/

namespace SurfSmart

/-! ### Configuration constants (the `CONFIG` block of TurnAnalyzer.ts) -/

def FPS_SMOOTH : ℚ := 9/10
def MIN_DET_FRAMES : ℕ := 6
def COOLDOWN_FRAMES : ℕ := 12
def BT_KNEE_MIN : ℚ := 70
def BT_KNEE_MAX : ℚ := 100
def BT_TORSO_MIN : ℚ := 20
def BT_TORSO_MAX : ℚ := 40
def ROT_MIN : ℚ := 15
def TT_TORSO_UPRIGHT_MAX : ℚ := 20
def KNEE_EXT_DELTA : ℚ := 15
def SMOOTH_STD_MAX : ℝ := 8

/-! ### Joint names used by the analyzer -/

def LEFT_SHOULDER : String := "left_shoulder"
def RIGHT_SHOULDER : String := "right_shoulder"
def LEFT_HIP : String := "left_hip"
def RIGHT_HIP : String := "right_hip"

/-- `PoseKeypoint` from `src/utils/poseDetection.ts`: a named landmark with a
2D position and a confidence (the optional depth `z` is never read by the
turn analyzer and is omitted). -/
structure PoseKeypoint where
  name : String
  x : ℝ
  y : ℝ
  confidence : ℝ

/-! ### Geometry helpers -/

/-- `angleAt(a, b, c)` from `TurnAnalyzer.ts`: the angle at vertex `b` between
rays `b→a` and `b→c`, via the dot product over the (epsilon-guarded) product
of magnitudes, with the cosine clamped to [-1, 1], in degrees. -/
noncomputable def angleAt (a b c : PoseKeypoint) : ℝ :=
  let ba := (a.x - b.x, a.y - b.y)
  let bc := (c.x - b.x, c.y - b.y)
  let dotProduct := ba.1 * bc.1 + ba.2 * bc.2
  let magBA := Real.sqrt (ba.1 * ba.1 + ba.2 * ba.2)
  let magBC := Real.sqrt (bc.1 * bc.1 + bc.2 * bc.2)
  let denom := magBA * magBC + 1e-9
  let cosang := max (-1) (min 1 (dotProduct / denom))
  Real.arccos cosang * (180 / Real.pi)

/-- `Math.atan2(y, x) * (180 / Math.PI)`, embedded through `Complex.arg`. -/
noncomputable def atan2deg (y x : ℝ) : ℝ :=
  Complex.arg ⟨x, y⟩ * (180 / Real.pi)

/-- `keypoints.find(kp => kp.name === n)`: first keypoint with the given name. -/
def findKP (n : String) : List PoseKeypoint → Option PoseKeypoint
  | [] => none
  | kp :: tl => if kp.name = n then some kp else findKP n tl

/-- The `[0,180]`-normalisation applied to the absolute angle difference in
`rotationDiff`: `diff <= 180 ? diff : 360 - diff`. -/
noncomputable def normDiff (a b : ℝ) : ℝ :=
  if |a - b| ≤ 180 then |a - b| else 360 - |a - b|

/-- `rotationDiff(keypoints)` from `TurnAnalyzer.ts`: shoulder-line angle
minus hip-line angle, absolute value, normalised into [0, 180]; missing
joints default to 0. -/
noncomputable def rotationDiff (keypoints : List PoseKeypoint) : ℝ :=
  match findKP LEFT_SHOULDER keypoints, findKP RIGHT_SHOULDER keypoints,
        findKP LEFT_HIP keypoints, findKP RIGHT_HIP keypoints with
  | some ls, some rs, some lh, some rh =>
      let shAng := atan2deg (ls.y - rs.y) (ls.x - rs.x)
      let hpAng := atan2deg (lh.y - rh.y) (lh.x - rh.x)
      normDiff shAng hpAng
  | _, _, _, _ => 0

/-- The consistent left/right relabelling of the shoulder pair and hip pair. -/
def swapLRName (n : String) : String :=
  if n = LEFT_SHOULDER then RIGHT_SHOULDER
  else if n = RIGHT_SHOULDER then LEFT_SHOULDER
  else if n = LEFT_HIP then RIGHT_HIP
  else if n = RIGHT_HIP then LEFT_HIP
  else n

/-- Relabel one keypoint, keeping its position. -/
def swapLR (kp : PoseKeypoint) : PoseKeypoint :=
  { kp with name := swapLRName kp.name }

/-! ### Smoothing filter (`class EMA`) -/

/-- The exponential-moving-average filter: decay factor `a`, running value `v`
(`null` until the first sample). -/
structure EMA where
  a : ℚ
  v : Option ℚ

/-- `EMA.update(x)`: seed on first call, `a·v + (1-a)·x` afterwards; returns
the new value together with the updated filter. -/
def EMA.update (e : EMA) (x : ℚ) : ℚ × EMA :=
  match e.v with
  | none => (x, ⟨e.a, some x⟩)
  | some p =>
      let v := e.a * p + (1 - e.a) * x
      (v, ⟨e.a, some v⟩)

/-- Feed a list of raw samples through the filter, one `update` per element. -/
def EMA.runList (e : EMA) : List ℚ → EMA
  | [] => e
  | x :: xs => EMA.runList (e.update x).2 xs

/-! ### Scoring rubric -/

/-- Population standard deviation of a series, or 0 if fewer than 5 samples
(the `stdOr0` lambda defined identically inside both scoring functions). -/
noncomputable def stdOr0 (arr : List ℚ) : ℝ :=
  if 5 ≤ arr.length then
    let mean : ℚ := arr.sum / arr.length
    Real.sqrt ((((arr.map (fun v => (v - mean) ^ 2)).sum : ℚ) / arr.length : ℚ) : ℝ)
  else 0

/-- `(stdOr0(knee) + stdOr0(torso) + stdOr0(rot)) / 3`. -/
noncomputable def smoothProxy (kneeSeries torsoSeries rotSeries : List ℚ) : ℝ :=
  (stdOr0 kneeSeries + stdOr0 torsoSeries + stdOr0 rotSeries) / 3

/-- JavaScript `Math.round` (round half toward +∞) on an exact rational. -/
def jsRound (x : ℚ) : ℚ := ((⌊x + 1/2⌋ : ℤ) : ℚ)

/-- `Math.round(x * 10) / 10`. -/
def round1 (x : ℚ) : ℚ := jsRound (x * 10) / 10

/-- JavaScript `Math.round` on a real. -/
noncomputable def jsRoundR (x : ℝ) : ℝ := ((⌊x + 1/2⌋ : ℤ) : ℝ)

/-- `Math.round(x * 100) / 100`. -/
noncomputable def round2R (x : ℝ) : ℝ := jsRoundR (x * 100) / 100

/-- The detail map built by `scoreBottomTurn` (its four fixed keys become
fields; the source keys are "compression", "torso_lean", "rotation",
"smoothness_std"). Each entry is (points awarded, raw measured value). -/
structure BottomDetail where
  compression : ℕ × ℚ
  torso_lean_entry : ℕ × ℚ
  rotation : ℕ × ℚ
  smoothness_std : ℕ × ℝ

/-- The detail map built by `scoreTopTurn` (source keys
"extension_delta_vs_bottom", "upright_torso", "rotation", "smoothness_std"). -/
structure TopDetail where
  extension_delta_vs_bottom : ℕ × ℚ
  upright_torso : ℕ × ℚ
  rotation : ℕ × ℚ
  smoothness_std : ℕ × ℝ

/-- `scoreBottomTurn(knee, torso, rot, kneeSeries, torsoSeries, rotSeries)`:
compression (≤3), torso lean (≤3), rotation (≤2) and smoothness (≤2) points
with their detail entries. -/
noncomputable def scoreBottomTurn (knee torso rot : ℚ)
    (kneeSeries torsoSeries rotSeries : List ℚ) : ℕ × BottomDetail :=
  let comp : ℕ :=
    if BT_KNEE_MIN ≤ knee ∧ knee ≤ BT_KNEE_MAX then 3
    else if (60 ≤ knee ∧ knee < 70) ∨ (100 < knee ∧ knee ≤ 110) then 2
    else if (50 ≤ knee ∧ knee < 60) ∨ (110 < knee ∧ knee ≤ 120) then 1
    else 0
  let leanPts : ℕ :=
    if BT_TORSO_MIN ≤ torso ∧ torso ≤ BT_TORSO_MAX then 3
    else if (15 ≤ torso ∧ torso < 20) ∨ (40 < torso ∧ torso ≤ 50) then 2
    else if (10 ≤ torso ∧ torso < 15) ∨ (50 < torso ∧ torso ≤ 60) then 1
    else 0
  let rotPts : ℕ := if ROT_MIN ≤ rot then 2 else if 10 ≤ rot then 1 else 0
  let p := smoothProxy kneeSeries torsoSeries rotSeries
  let smPts : ℕ := if p ≤ SMOOTH_STD_MAX then 2 else if p ≤ SMOOTH_STD_MAX * (3/2) then 1 else 0
  (comp + leanPts + rotPts + smPts,
   ⟨(comp, knee), (leanPts, torso), (rotPts, rot), (smPts, round2R p)⟩)

/-- `scoreTopTurn(kneeNow, kneeBt, torso, rot, kneeSeries, torsoSeries,
rotSeries)`: extension vs bottom (≤3, delta is 0 when `kneeBt` is null),
upright torso (≤2), rotation (≤3) and smoothness (≤2). -/
noncomputable def scoreTopTurn (kneeNow : ℚ) (kneeBt : Option ℚ) (torso rot : ℚ)
    (kneeSeries torsoSeries rotSeries : List ℚ) : ℕ × TopDetail :=
  let extDelta : ℚ := match kneeBt with | some kb => kneeNow - kb | none => 0
  let extPts : ℕ :=
    if KNEE_EXT_DELTA ≤ extDelta then 3
    else if 10 ≤ extDelta then 2
    else if 5 ≤ extDelta then 1
    else 0
  let upPts : ℕ := if torso ≤ TT_TORSO_UPRIGHT_MAX then 2
    else if torso ≤ TT_TORSO_UPRIGHT_MAX + 10 then 1 else 0
  let rotPts : ℕ := if ROT_MIN ≤ rot then 3 else if 10 ≤ rot then 2 else if 5 ≤ rot then 1 else 0
  let p := smoothProxy kneeSeries torsoSeries rotSeries
  let smPts : ℕ := if p ≤ SMOOTH_STD_MAX then 2 else if p ≤ SMOOTH_STD_MAX * (3/2) then 1 else 0
  (extPts + upPts + rotPts + smPts,
   ⟨(extPts, round1 extDelta), (upPts, torso), (rotPts, rot), (smPts, round2R p)⟩)

/-! ### State machine (`enum TurnState`, `class TurnFSM`) -/

inductive TurnState where
  | idle
  | bottom
  | transition
  | top
  | cooldown
deriving DecidableEq

/-- `TurnSnapshot`: the captured (knee, torso, rot) triple. -/
structure TurnSnapshot where
  knee : ℚ
  torso : ℚ
  rot : ℚ
deriving DecidableEq

/-- One rolling series triple (`{ knee: [], torso: [], rot: [] }`). -/
structure Series where
  knee : List ℚ
  torso : List ℚ
  rot : List ℚ
deriving DecidableEq

def Series.empty : Series := ⟨[], [], []⟩

/-- Push one frame onto a rolling series; if the knee list then exceeds 30
entries, shift (drop the oldest entry of) all three lists. -/
def Series.pushCap (s : Series) (k t r : ℚ) : Series :=
  let s' : Series := ⟨s.knee ++ [k], s.torso ++ [t], s.rot ++ [r]⟩
  if 30 < s'.knee.length then ⟨s'.knee.tail, s'.torso.tail, s'.rot.tail⟩ else s'

/-- `TurnResult.bottom_turn`. The `detail` is `Option`-valued because the code
emits `this.btScore?.[1] || {}`: `none` models the empty object. -/
structure BottomTurnOut where
  score : ℕ
  detail : Option BottomDetail
  snapshot : TurnSnapshot
  frames : ℕ

/-- `TurnResult.top_turn`. -/
structure TopTurnOut where
  score : ℕ
  detail : TopDetail
  frames : ℕ

/-- The emitted `TurnResult`. -/
structure TurnResult where
  bottom_turn : BottomTurnOut
  top_turn : TopTurnOut

noncomputable instance : Inhabited TurnResult :=
  ⟨⟨⟨0, none, ⟨0, 0, 0⟩, 0⟩, ⟨0, ⟨(0, 0), (0, 0), (0, 0), (0, 0)⟩, 0⟩⟩⟩

/-- The mutable fields of `class TurnFSM`. -/
structure TurnFSM where
  state : TurnState
  framesInState : ℕ
  bottomSnapshot : Option TurnSnapshot
  bottomSeries : Series
  topSeries : Series
  btScore : Option (ℕ × BottomDetail)
  prevKnee : Option ℚ

/-- A freshly constructed `TurnFSM`. -/
def initFSM : TurnFSM :=
  ⟨.idle, 0, none, Series.empty, Series.empty, none, none⟩

/-- `Math.abs` on an exact rational. -/
def jsAbs (x : ℚ) : ℚ := if x < 0 then -x else x

/-- `Math.max` on exact rationals. -/
def jsMax (a b : ℚ) : ℚ := if a < b then b else a

/-- The BOTTOM-state snapshot update: replace the snapshot by the current
triple when the current knee is strictly closer to the 85° target than
`bottomSnapshot?.knee || knee` (JavaScript `||`: a null snapshot, or a
snapshot knee equal to 0, falls back to the current knee). -/
def updatedSnap (snap : Option TurnSnapshot) (k t r : ℚ) : Option TurnSnapshot :=
  let prevBest : ℚ :=
    match snap with
    | some sn => if sn.knee = 0 then k else sn.knee
    | none => k
  if jsAbs (k - 85) < jsAbs (prevBest - 85) then some ⟨k, t, r⟩ else snap

/-- The BOTTOM-exit test of `TurnFSM.update`, evaluated after the snapshot
update: knee extending by more than 3° vs the previous frame, torso more
upright (below `max(BT_TORSO_MIN - 2, 10)` or strictly more than 5° under the
snapshot torso), at least `MIN_DET_FRAMES` frames in state, snapshot present. -/
def bottomExitNow (s : TurnFSM) (knee torso rot : ℚ) : Bool :=
  let snap' := updatedSnap s.bottomSnapshot knee torso rot
  let extending : Bool :=
    match s.prevKnee with
    | some pk => decide (3 < knee - pk)
    | none => false
  let moreUpright : Bool :=
    decide (torso < jsMax (BT_TORSO_MIN - 2) 10) ||
      (match snap' with
       | some sn => decide (torso < sn.torso - 5)
       | none => false)
  extending && moreUpright && decide (MIN_DET_FRAMES ≤ s.framesInState + 1) && snap'.isSome

/-- `this.bottomSnapshot?.knee || null` in the TOP branch: the snapshot knee,
with both a missing snapshot and a snapshot knee of 0 collapsing to null. -/
def kneeBtOf (snap : Option TurnSnapshot) : Option ℚ :=
  match snap with
  | some sn => if sn.knee = 0 then none else some sn.knee
  | none => none

/-- The TOP-exit test of `TurnFSM.update`: torso ≤ 30, rot ≥ 10, knee at
least 5° above the bottom snapshot knee (vacuous when that is null), and at
least `MIN_DET_FRAMES` frames in state. -/
def topExitNow (s : TurnFSM) (knee torso rot : ℚ) : Bool :=
  let kneeBt := kneeBtOf s.bottomSnapshot
  decide (torso ≤ TT_TORSO_UPRIGHT_MAX + 10) && decide (10 ≤ rot) &&
    (match kneeBt with
     | some kb => decide (5 ≤ knee - kb)
     | none => true) &&
    decide (MIN_DET_FRAMES ≤ s.framesInState + 1)

/-- `TurnFSM.update(knee, torso, rot)`: one frame of the state machine,
returning the updated machine and the emitted result, if any.  The frame
counter is incremented first; the frame is appended to the bottom-phase
series in IDLE/BOTTOM and to the top-phase series in TRANSITION/TOP (both
capped at 30); then the per-state logic runs.  `prevKnee` is set to the
current knee at the end of the call, except on the emitting TOP-exit path,
whose early `return` skips that assignment. -/
noncomputable def TurnFSM.update (s : TurnFSM) (knee torso rot : ℚ) :
    TurnFSM × Option TurnResult :=
  let fis := s.framesInState + 1
  let bSeries :=
    if s.state = .idle ∨ s.state = .bottom then s.bottomSeries.pushCap knee torso rot
    else s.bottomSeries
  let tSeries :=
    if s.state = .transition ∨ s.state = .top then s.topSeries.pushCap knee torso rot
    else s.topSeries
  match s.state with
  | .idle =>
      if BT_KNEE_MIN ≤ knee ∧ knee ≤ BT_KNEE_MAX ∧ BT_TORSO_MIN ≤ torso ∧
          torso ≤ BT_TORSO_MAX ∧ ROT_MIN ≤ rot then
        ({ state := .bottom
           framesInState := 1
           bottomSnapshot := some ⟨knee, torso, rot⟩
           bottomSeries := bSeries
           topSeries := tSeries
           btScore := s.btScore
           prevKnee := some knee }, none)
      else
        ({ s with
           framesInState := fis
           bottomSeries := bSeries
           topSeries := tSeries
           prevKnee := some knee }, none)
  | .bottom =>
      match updatedSnap s.bottomSnapshot knee torso rot with
      | some sn =>
          if bottomExitNow s knee torso rot = true then
            ({ state := .transition
               framesInState := 0
               bottomSnapshot := some sn
               bottomSeries := bSeries
               topSeries := Series.empty
               btScore := some (scoreBottomTurn sn.knee sn.torso sn.rot
                 bSeries.knee bSeries.torso bSeries.rot)
               prevKnee := some knee }, none)
          else
            ({ s with
               framesInState := fis
               bottomSnapshot := some sn
               bottomSeries := bSeries
               topSeries := tSeries
               prevKnee := some knee }, none)
      | none =>
          ({ s with
             framesInState := fis
             bottomSnapshot := none
             bottomSeries := bSeries
             topSeries := tSeries
             prevKnee := some knee }, none)
  | .transition =>
      if 3 ≤ fis then
        ({ s with
           state := .top
           framesInState := 0
           bottomSeries := bSeries
           topSeries := tSeries
           prevKnee := some knee }, none)
      else
        ({ s with
           framesInState := fis
           bottomSeries := bSeries
           topSeries := tSeries
           prevKnee := some knee }, none)
  | .top =>
      if topExitNow s knee torso rot = true then
        let tt := scoreTopTurn knee (kneeBtOf s.bottomSnapshot) torso rot
          tSeries.knee tSeries.torso tSeries.rot
        ({ s with
           state := .cooldown
           framesInState := 0
           bottomSeries := bSeries
           topSeries := tSeries },
         some
           { bottom_turn :=
               { score := (match s.btScore with | some bs => bs.1 | none => 0)
                 detail := s.btScore.map Prod.snd
                 snapshot := s.bottomSnapshot.getD ⟨0, 0, 0⟩
                 frames := bSeries.knee.length }
             top_turn := { score := tt.1, detail := tt.2, frames := tSeries.knee.length } })
      else
        ({ s with
           framesInState := fis
           bottomSeries := bSeries
           topSeries := tSeries
           prevKnee := some knee }, none)
  | .cooldown =>
      if COOLDOWN_FRAMES ≤ fis then
        ({ state := .idle
           framesInState := 0
           bottomSnapshot := none
           bottomSeries := Series.empty
           topSeries := Series.empty
           btScore := none
           prevKnee := some knee }, none)
      else
        ({ s with
           framesInState := fis
           bottomSeries := bSeries
           topSeries := tSeries
           prevKnee := some knee }, none)

/-- Run the machine over a list of (knee, torso, rot) frames, collecting the
emitted results in order. -/
noncomputable def runFSM (s : TurnFSM) : List (ℚ × ℚ × ℚ) → TurnFSM × List TurnResult
  | [] => (s, [])
  | (k, t, r) :: rest =>
      let step := s.update k t r
      let later := runFSM step.1 rest
      (later.1, match step.2 with | some x => x :: later.2 | none => later.2)

/-- Ghost frame counters accompanying one `TurnFSM.update` step.  `nBot`
counts the frames the update has pushed onto the bottom-phase rolling
history since that history was last cleared: it is incremented exactly on
the frames processed in IDLE or BOTTOM (the same state test the update uses
for its push), so it counts the IDLE frames seen before the maneuver began
plus the BOTTOM frames; it is reset exactly where the update clears the
bottom history, namely the COOLDOWN→IDLE reset.  `nTop` likewise counts the
frames pushed onto the top-phase history — the TRANSITION frames and the
TOP frames — and is reset where that history is cleared, namely the
BOTTOM→TRANSITION exit and the COOLDOWN→IDLE reset. -/
def countStep (s : TurnFSM) (k t r : ℚ) (nBot nTop : ℕ) : ℕ × ℕ :=
  let nBot' := if s.state = .idle ∨ s.state = .bottom then nBot + 1 else nBot
  let nTop' := if s.state = .transition ∨ s.state = .top then nTop + 1 else nTop
  match s.state with
  | .bottom => if bottomExitNow s k t r = true then (nBot', 0) else (nBot', nTop')
  | .cooldown => if COOLDOWN_FRAMES ≤ s.framesInState + 1 then (0, 0) else (nBot', nTop')
  | _ => (nBot', nTop')

/-- `runFSM` instrumented with the ghost counters of `countStep`: each
emitted result is annotated with the machine state right after the emitting
update and with the counter values at that emission.  Erasing the
annotations recovers `runFSM` exactly (`runFSMCount_fst`). -/
noncomputable def runFSMCount (s : TurnFSM) (nBot nTop : ℕ) :
    List (ℚ × ℚ × ℚ) → (TurnFSM × ℕ × ℕ) × List (TurnResult × TurnFSM × ℕ × ℕ)
  | [] => ((s, nBot, nTop), [])
  | (k, t, r) :: rest =>
      let step := s.update k t r
      let counts := countStep s k t r nBot nTop
      let later := runFSMCount step.1 counts.1 counts.2 rest
      (later.1, match step.2 with
        | some x => (x, step.1, counts.1, counts.2) :: later.2
        | none => later.2)

/-! ### Concrete input sequences used by the witnesses and counterexamples -/

/-- Six identical compression frames: enters BOTTOM and stays there. -/
def seq6 : List (ℚ × ℚ × ℚ) := List.replicate 6 (85, 30, 20)

/-- A complete maneuver: 6 compression frames, one extension frame that exits
BOTTOM, 3 transition frames, 6 extension frames that exit TOP and emit. -/
def seq16 : List (ℚ × ℚ × ℚ) :=
  List.replicate 6 (85, 30, 20) ++ List.replicate 4 (110, 15, 20) ++
    List.replicate 6 (130, 15, 20)

/-- A BOTTOM-state machine used to witness the BOTTOM-exit rule. -/
def bottomState : TurnFSM :=
  ⟨.bottom, 6, some ⟨85, 30, 20⟩, ⟨List.replicate 6 85, List.replicate 6 30,
    List.replicate 6 20⟩, Series.empty, none, some 85⟩

/-- Frame pose with coincident shoulders (both at the origin) and distinct
hips, used to refute label-swap invariance of `rotationDiff`. -/
def degenerateFrame : List PoseKeypoint :=
  [⟨LEFT_SHOULDER, 0, 0, 1⟩, ⟨RIGHT_SHOULDER, 0, 0, 1⟩,
   ⟨LEFT_HIP, 1, 1, 1⟩, ⟨RIGHT_HIP, 0, 0, 1⟩]

/-- A nondegenerate frame pose containing all four torso joints. -/
def squareFrame : List PoseKeypoint :=
  [⟨LEFT_SHOULDER, 0, 0, 1⟩, ⟨RIGHT_SHOULDER, 10, 0, 1⟩,
   ⟨LEFT_HIP, 0, 10, 1⟩, ⟨RIGHT_HIP, 10, 10, 1⟩]

/-- The structural invariant on rolling-series lengths maintained by
`TurnFSM.update`, used to bound the frame counts of emitted results. -/
def SeriesInv (s : TurnFSM) : Prop :=
  s.bottomSeries.knee.length ≤ 30 ∧ s.topSeries.knee.length ≤ 30 ∧
  (s.state = .bottom → min 30 s.framesInState ≤ s.bottomSeries.knee.length) ∧
  ((s.state = .transition ∨ s.state = .top) → 6 ≤ s.bottomSeries.knee.length) ∧
  (s.state = .transition → s.topSeries.knee.length = s.framesInState ∧ s.framesInState ≤ 2) ∧
  (s.state = .top → s.topSeries.knee.length = min 30 (3 + s.framesInState))

/-- The snapshot invariant maintained by `TurnFSM.update`: away from IDLE and
COOLDOWN the bottom snapshot exists and its knee is in the BOTTOM entry band. -/
def SnapInv (s : TurnFSM) : Prop :=
  (s.state = .bottom ∨ s.state = .transition ∨ s.state = .top) →
    ∃ sn, s.bottomSnapshot = some sn ∧ BT_KNEE_MIN ≤ sn.knee ∧ sn.knee ≤ BT_KNEE_MAX

/-- The counting invariant tying the ghost counters of `countStep` to the
machine: each rolling history's length is the capped (at 30) count of the
frames pushed onto it since its last clear, and in TRANSITION and TOP the
top counter splits as the TRANSITION frames (at most, then exactly, 3) plus
the TOP frames recorded by the in-state frame counter. -/
def CountInv (s : TurnFSM) (nBot nTop : ℕ) : Prop :=
  s.bottomSeries.knee.length = min 30 nBot ∧
  s.topSeries.knee.length = min 30 nTop ∧
  (s.state = .transition → nTop = s.framesInState ∧ s.framesInState ≤ 2) ∧
  (s.state = .top → nTop = 3 + s.framesInState)

/-! ### Theorems -/

/-- C1 (corrected): the extension criterion of `scoreTopTurn` uses
`delta = kneeNow − kneeAtBottom` when the bottom knee is present and
`delta = 0` when it is null (not `kneeNow − 0`); the points are 3/2/1/0 at
the ≥15/≥10/≥5 tiers and the detail records delta rounded to one decimal. -/
theorem scoreTopTurn_extension_rule (kneeNow : ℚ) (kneeBt : Option ℚ) (torso rot : ℚ)
    (ks ts rs : List ℚ) :
    (scoreTopTurn kneeNow kneeBt torso rot ks ts rs).2.extension_delta_vs_bottom.1 =
      (if 15 ≤ kneeBt.elim 0 (fun kb => kneeNow - kb) then 3
       else if 10 ≤ kneeBt.elim 0 (fun kb => kneeNow - kb) then 2
       else if 5 ≤ kneeBt.elim 0 (fun kb => kneeNow - kb) then 1 else 0) ∧
    (scoreTopTurn kneeNow kneeBt torso rot ks ts rs).2.extension_delta_vs_bottom.2 =
      round1 (kneeBt.elim 0 (fun kb => kneeNow - kb)) := by
  cases kneeBt <;> exact ⟨rfl, rfl⟩

/-- C1 counterexample to the claim as stated: with `kneeNow = 20` and a null
bottom knee, `kneeNow − (kneeAtBottom or 0) = 20 ≥ 15` would award 3 points,
but the code computes delta = 0 and awards 0 points (recording 0). -/
theorem scoreTopTurn_null_extension_cex :
    (15 : ℚ) ≤ 20 - (Option.getD (none : Option ℚ) 0) ∧
    (scoreTopTurn 20 none 25 0 [] [] []).2.extension_delta_vs_bottom.1 = 0 ∧
    (scoreTopTurn 20 none 25 0 [] [] []).2.extension_delta_vs_bottom.2 = 0 := by
  refine ⟨by norm_num, ?_, ?_⟩
  · show (if KNEE_EXT_DELTA ≤ (0:ℚ) then 3
      else if 10 ≤ (0:ℚ) then 2 else if 5 ≤ (0:ℚ) then 1 else 0) = 0
    norm_num [KNEE_EXT_DELTA]
  · show round1 0 = 0
    norm_num [round1, jsRound]

/-- C6: both scoring functions return the sum of their four criterion points
(compression ≤ 3, torso lean ≤ 3, rotation ≤ 2, smoothness ≤ 2 for the
bottom turn; extension ≤ 3, upright torso ≤ 2, rotation ≤ 3, smoothness ≤ 2
for the top turn), and neither total exceeds 10. -/
theorem score_totals_and_caps (knee torso rot : ℚ) (ks ts rs : List ℚ)
    (kneeNow : ℚ) (kneeBt : Option ℚ) (torso2 rot2 : ℚ) (ks2 ts2 rs2 : List ℚ) :
    ((scoreBottomTurn knee torso rot ks ts rs).1 =
        (scoreBottomTurn knee torso rot ks ts rs).2.compression.1 +
          (scoreBottomTurn knee torso rot ks ts rs).2.torso_lean_entry.1 +
          (scoreBottomTurn knee torso rot ks ts rs).2.rotation.1 +
          (scoreBottomTurn knee torso rot ks ts rs).2.smoothness_std.1 ∧
      (scoreBottomTurn knee torso rot ks ts rs).2.compression.1 ≤ 3 ∧
      (scoreBottomTurn knee torso rot ks ts rs).2.torso_lean_entry.1 ≤ 3 ∧
      (scoreBottomTurn knee torso rot ks ts rs).2.rotation.1 ≤ 2 ∧
      (scoreBottomTurn knee torso rot ks ts rs).2.smoothness_std.1 ≤ 2 ∧
      (scoreBottomTurn knee torso rot ks ts rs).1 ≤ 10) ∧
    ((scoreTopTurn kneeNow kneeBt torso2 rot2 ks2 ts2 rs2).1 =
        (scoreTopTurn kneeNow kneeBt torso2 rot2 ks2 ts2 rs2).2.extension_delta_vs_bottom.1 +
          (scoreTopTurn kneeNow kneeBt torso2 rot2 ks2 ts2 rs2).2.upright_torso.1 +
          (scoreTopTurn kneeNow kneeBt torso2 rot2 ks2 ts2 rs2).2.rotation.1 +
          (scoreTopTurn kneeNow kneeBt torso2 rot2 ks2 ts2 rs2).2.smoothness_std.1 ∧
      (scoreTopTurn kneeNow kneeBt torso2 rot2 ks2 ts2 rs2).2.extension_delta_vs_bottom.1 ≤ 3 ∧
      (scoreTopTurn kneeNow kneeBt torso2 rot2 ks2 ts2 rs2).2.upright_torso.1 ≤ 2 ∧
      (scoreTopTurn kneeNow kneeBt torso2 rot2 ks2 ts2 rs2).2.rotation.1 ≤ 3 ∧
      (scoreTopTurn kneeNow kneeBt torso2 rot2 ks2 ts2 rs2).2.smoothness_std.1 ≤ 2 ∧
      (scoreTopTurn kneeNow kneeBt torso2 rot2 ks2 ts2 rs2).1 ≤ 10) := by
  have hb1 : (scoreBottomTurn knee torso rot ks ts rs).2.compression.1 ≤ 3 := by
    simp only [scoreBottomTurn]; split_ifs <;> norm_num
  have hb2 : (scoreBottomTurn knee torso rot ks ts rs).2.torso_lean_entry.1 ≤ 3 := by
    simp only [scoreBottomTurn]; split_ifs <;> norm_num
  have hb3 : (scoreBottomTurn knee torso rot ks ts rs).2.rotation.1 ≤ 2 := by
    simp only [scoreBottomTurn]; split_ifs <;> norm_num
  have hb4 : (scoreBottomTurn knee torso rot ks ts rs).2.smoothness_std.1 ≤ 2 := by
    simp only [scoreBottomTurn]; split_ifs <;> norm_num
  have hbs : (scoreBottomTurn knee torso rot ks ts rs).1 =
      (scoreBottomTurn knee torso rot ks ts rs).2.compression.1 +
        (scoreBottomTurn knee torso rot ks ts rs).2.torso_lean_entry.1 +
        (scoreBottomTurn knee torso rot ks ts rs).2.rotation.1 +
        (scoreBottomTurn knee torso rot ks ts rs).2.smoothness_std.1 := rfl
  have ht1 : (scoreTopTurn kneeNow kneeBt torso2 rot2 ks2 ts2 rs2).2.extension_delta_vs_bottom.1 ≤ 3 := by
    simp only [scoreTopTurn]; split_ifs <;> norm_num
  have ht2 : (scoreTopTurn kneeNow kneeBt torso2 rot2 ks2 ts2 rs2).2.upright_torso.1 ≤ 2 := by
    simp only [scoreTopTurn]; split_ifs <;> norm_num
  have ht3 : (scoreTopTurn kneeNow kneeBt torso2 rot2 ks2 ts2 rs2).2.rotation.1 ≤ 3 := by
    simp only [scoreTopTurn]; split_ifs <;> norm_num
  have ht4 : (scoreTopTurn kneeNow kneeBt torso2 rot2 ks2 ts2 rs2).2.smoothness_std.1 ≤ 2 := by
    simp only [scoreTopTurn]; split_ifs <;> norm_num
  have hts : (scoreTopTurn kneeNow kneeBt torso2 rot2 ks2 ts2 rs2).1 =
      (scoreTopTurn kneeNow kneeBt torso2 rot2 ks2 ts2 rs2).2.extension_delta_vs_bottom.1 +
        (scoreTopTurn kneeNow kneeBt torso2 rot2 ks2 ts2 rs2).2.upright_torso.1 +
        (scoreTopTurn kneeNow kneeBt torso2 rot2 ks2 ts2 rs2).2.rotation.1 +
        (scoreTopTurn kneeNow kneeBt torso2 rot2 ks2 ts2 rs2).2.smoothness_std.1 := rfl
  exact ⟨⟨hbs, hb1, hb2, hb3, hb4, by omega⟩, ⟨hts, ht1, ht2, ht3, ht4, by omega⟩⟩

/-- The left fold of `min` only descends below its initial value. -/
theorem foldl_min_le_init (xs : List ℚ) : ∀ x : ℚ, xs.foldl min x ≤ x := by
  induction xs with
  | nil => intro x; simp
  | cons a tl ih =>
      intro x
      simpa using le_trans (ih (min x a)) (min_le_left x a)

/-- The left fold of `min` is below each list element. -/
theorem foldl_min_le_mem (y : ℚ) (xs : List ℚ) : ∀ x : ℚ, y ∈ xs → xs.foldl min x ≤ y := by
  induction xs with
  | nil => intro x hy; cases hy
  | cons a tl ih =>
      intro x hy
      rcases List.mem_cons.mp hy with h | h
      · subst h
        simpa using le_trans (foldl_min_le_init tl (min x y)) (min_le_right x y)
      · simpa using ih (min x a) h

/-- The left fold of `max` only climbs above its initial value. -/
theorem le_foldl_max_init (xs : List ℚ) : ∀ x : ℚ, x ≤ xs.foldl max x := by
  induction xs with
  | nil => intro x; simp
  | cons a tl ih =>
      intro x
      simpa using le_trans (le_max_left x a) (ih (max x a))

/-- The left fold of `max` is above each list element. -/
theorem mem_le_foldl_max (y : ℚ) (xs : List ℚ) : ∀ x : ℚ, y ∈ xs → y ≤ xs.foldl max x := by
  induction xs with
  | nil => intro x hy; cases hy
  | cons a tl ih =>
      intro x hy
      rcases List.mem_cons.mp hy with h | h
      · subst h
        simpa using le_trans (le_max_right x y) (le_foldl_max_init tl (max x y))
      · simpa using ih (max x a) h

/-- Convexity step: running the filter from a seeded value inside `[lo, hi]`
over samples inside `[lo, hi]` stays inside `[lo, hi]`. -/
theorem ema_runList_bounds (lo hi : ℚ) (xs : List ℚ) : ∀ w : ℚ, lo ≤ w → w ≤ hi →
    (∀ z ∈ xs, lo ≤ z ∧ z ≤ hi) →
    ∃ y, (EMA.runList ⟨9/10, some w⟩ xs).v = some y ∧ lo ≤ y ∧ y ≤ hi := by
  induction xs with
  | nil => intro w h1 h2 _; exact ⟨w, rfl, h1, h2⟩
  | cons a tl ih =>
      intro w h1 h2 hall
      have ha := hall a (List.mem_cons_self a tl)
      have hlo : lo ≤ 9/10 * w + (1 - 9/10) * a := by linarith [ha.1]
      have hhi : 9/10 * w + (1 - 9/10) * a ≤ hi := by linarith [ha.2]
      simpa [EMA.runList, EMA.update] using
        ih (9/10 * w + (1 - 9/10) * a) hlo hhi (fun z hz => hall z (List.mem_cons_of_mem a hz))

/-- A constant stream leaves a seeded filter exactly at that constant. -/
theorem ema_runList_const (V : ℚ) : ∀ n : ℕ,
    (EMA.runList ⟨9/10, some V⟩ (List.replicate n V)).v = some V := by
  intro n
  induction n with
  | zero => rfl
  | succ m ih =>
      have hV : (9:ℚ)/10 * V + (1 - 9/10) * V = V := by ring
      simpa [List.replicate_succ, EMA.runList, EMA.update, hV] using ih

/-- C5: the smoothing filter seeds with the first raw sample unchanged,
afterwards returns `α·previous + (1−α)·raw` with `α = 0.9`, keeps its output
between the minimum and maximum of the inputs observed so far, and returns a
constant input stream exactly. -/
theorem ema_spec :
    (∀ (e : EMA) (x : ℚ), e.v = none → (e.update x).1 = x) ∧
    (∀ (e : EMA) (p x : ℚ), e.a = FPS_SMOOTH → e.v = some p →
      (e.update x).1 = FPS_SMOOTH * p + (1 - FPS_SMOOTH) * x) ∧
    (∀ (x : ℚ) (xs : List ℚ), ∃ y, (EMA.runList ⟨FPS_SMOOTH, none⟩ (x :: xs)).v = some y ∧
      xs.foldl min x ≤ y ∧ y ≤ xs.foldl max x) ∧
    (∀ (V : ℚ) (n : ℕ), (EMA.runList ⟨FPS_SMOOTH, none⟩ (List.replicate (n + 1) V)).v = some V) := by
  refine ⟨?_, ?_, ?_, ?_⟩
  · intro e x he
    obtain ⟨a, v⟩ := e
    cases he
    rfl
  · intro e p x ha he
    obtain ⟨a, v⟩ := e
    cases he
    cases ha
    rfl
  · intro x xs
    have h0 : EMA.runList ⟨FPS_SMOOTH, none⟩ (x :: xs) = EMA.runList ⟨9/10, some x⟩ xs := rfl
    rw [h0]
    exact ema_runList_bounds (xs.foldl min x) (xs.foldl max x) xs x
      (foldl_min_le_init xs x) (le_foldl_max_init xs x)
      (fun z hz => ⟨foldl_min_le_mem z xs x hz, mem_le_foldl_max z xs x hz⟩)
  · intro V n
    have h0 : EMA.runList ⟨FPS_SMOOTH, none⟩ (List.replicate (n + 1) V)
        = EMA.runList ⟨9/10, some V⟩ (List.replicate n V) := by
      rw [List.replicate_succ]
      rfl
    rw [h0]
    exact ema_runList_const V n

/-- C5 witness: the four parts of `ema_spec` at concrete inputs. -/
theorem ema_spec_witness :
    (EMA.update ⟨9/10, none⟩ 7).1 = 7 ∧
    (EMA.update ⟨9/10, some 2⟩ 12).1 = FPS_SMOOTH * 2 + (1 - FPS_SMOOTH) * 12 ∧
    (∃ y, (EMA.runList ⟨FPS_SMOOTH, none⟩ (3 :: [5])).v = some y ∧
      [5].foldl min 3 ≤ y ∧ y ≤ [5].foldl max 3) ∧
    (EMA.runList ⟨FPS_SMOOTH, none⟩ (List.replicate (2 + 1) 4)).v = some 4 :=
  ⟨ema_spec.1 ⟨9/10, none⟩ 7 rfl, ema_spec.2.1 ⟨9/10, some 2⟩ 2 12 rfl rfl,
   ema_spec.2.2.1 3 [5], ema_spec.2.2.2 4 2⟩

/-- C8: `angleAt` is symmetric under swapping its outer arguments, and always
returns a degree measure in [0, 180]. -/
theorem angleAt_symm_and_range (a b c : PoseKeypoint) :
    angleAt a b c = angleAt c b a ∧ 0 ≤ angleAt a b c ∧ angleAt a b c ≤ 180 := by
  refine ⟨?_, ?_, ?_⟩
  · show Real.arccos _ * _ = Real.arccos _ * _
    have hdot : (a.x - b.x) * (c.x - b.x) + (a.y - b.y) * (c.y - b.y)
        = (c.x - b.x) * (a.x - b.x) + (c.y - b.y) * (a.y - b.y) := by ring
    rw [hdot, mul_comm (Real.sqrt ((c.x - b.x) * (c.x - b.x) + (c.y - b.y) * (c.y - b.y)))]
  · exact mul_nonneg (Real.arccos_nonneg _) (by positivity)
  · show Real.arccos _ * (180 / Real.pi) ≤ 180
    calc Real.arccos _ * (180 / Real.pi)
        ≤ Real.pi * (180 / Real.pi) :=
          mul_le_mul_of_nonneg_right (Real.arccos_le_pi _) (by positivity)
      _ = 180 := by field_simp


/-- C4: while in IDLE no result is ever emitted, and the machine moves to
BOTTOM exactly when knee ∈ [70,100], torso ∈ [20,40] and rot ≥ 15 hold in the
same frame, in which case the snapshot becomes the current triple and the
frame counter is reset to 1. -/
theorem idle_step_spec (s : TurnFSM) (knee torso rot : ℚ) (hs : s.state = .idle) :
    (s.update knee torso rot).2 = none ∧
    ((s.update knee torso rot).1.state = .bottom ↔
      (BT_KNEE_MIN ≤ knee ∧ knee ≤ BT_KNEE_MAX ∧ BT_TORSO_MIN ≤ torso ∧
        torso ≤ BT_TORSO_MAX ∧ ROT_MIN ≤ rot)) ∧
    ((BT_KNEE_MIN ≤ knee ∧ knee ≤ BT_KNEE_MAX ∧ BT_TORSO_MIN ≤ torso ∧
        torso ≤ BT_TORSO_MAX ∧ ROT_MIN ≤ rot) →
      (s.update knee torso rot).1.bottomSnapshot = some ⟨knee, torso, rot⟩ ∧
      (s.update knee torso rot).1.framesInState = 1) := by
  obtain ⟨st, fis, snap, bser, tser, sc, pk⟩ := s
  simp only at hs
  subst hs
  simp only [TurnFSM.update]
  by_cases h : BT_KNEE_MIN ≤ knee ∧ knee ≤ BT_KNEE_MAX ∧ BT_TORSO_MIN ≤ torso ∧
      torso ≤ BT_TORSO_MAX ∧ ROT_MIN ≤ rot
  · rw [if_pos h]
    exact ⟨rfl, by simp [h], fun _ => ⟨rfl, rfl⟩⟩
  · rw [if_neg h]
    exact ⟨rfl, by simp [h], fun hc => absurd hc h⟩

/-- C4 witness: a fresh machine given a qualifying frame emits nothing and
enters BOTTOM. -/
theorem idle_step_spec_witness :
    (initFSM.update 85 30 20).2 = none ∧ (initFSM.update 85 30 20).1.state = .bottom :=
  ⟨(idle_step_spec initFSM 85 30 20 rfl).1,
   (idle_step_spec initFSM 85 30 20 rfl).2.1.mpr
     (by norm_num [BT_KNEE_MIN, BT_KNEE_MAX, BT_TORSO_MIN, BT_TORSO_MAX, ROT_MIN])⟩

/-- Propositional characterisation of the BOTTOM-exit test. -/
theorem bottomExitNow_iff (s : TurnFSM) (knee torso rot : ℚ) :
    bottomExitNow s knee torso rot = true ↔
      ((∃ pk, s.prevKnee = some pk ∧ 3 < knee - pk) ∧
       (torso < jsMax (BT_TORSO_MIN - 2) 10 ∨
         (∃ sn, updatedSnap s.bottomSnapshot knee torso rot = some sn ∧ torso < sn.torso - 5)) ∧
       MIN_DET_FRAMES ≤ s.framesInState + 1 ∧
       (updatedSnap s.bottomSnapshot knee torso rot).isSome = true) := by
  obtain ⟨st, fis, snap, bser, tser, sc, pk⟩ := s
  simp only [bottomExitNow]
  rcases hup : updatedSnap snap knee torso rot with _ | sn <;> rcases pk with _ | pkv <;>
    simp [hup] <;> tauto

/-- C2 (corrected): from BOTTOM the machine exits to TRANSITION exactly when
the knee rose by more than 3° over the previous frame's knee, the torso is
below max(18,10) = 18 or STRICTLY more than 5° under the (possibly
just-updated) snapshot torso, at least 6 frames have elapsed in BOTTOM, and a
snapshot exists. -/
theorem bottom_exit_rule (s : TurnFSM) (knee torso rot : ℚ) (hs : s.state = .bottom) :
    (s.update knee torso rot).1.state = .transition ↔
      ((∃ pk, s.prevKnee = some pk ∧ 3 < knee - pk) ∧
       (torso < jsMax (BT_TORSO_MIN - 2) 10 ∨
         (∃ sn, updatedSnap s.bottomSnapshot knee torso rot = some sn ∧ torso < sn.torso - 5)) ∧
       MIN_DET_FRAMES ≤ s.framesInState + 1 ∧
       (updatedSnap s.bottomSnapshot knee torso rot).isSome = true) := by
  have hiff := bottomExitNow_iff s knee torso rot
  obtain ⟨st, fis, snap, bser, tser, sc, pk⟩ := s
  simp only at hs
  subst hs
  dsimp only at hiff ⊢
  simp only [TurnFSM.update]
  rcases hup : updatedSnap snap knee torso rot with _ | sn
  · rw [hup] at hiff
    simp only [hup]
    constructor
    · intro h; exact absurd h (by simp)
    · rintro ⟨-, -, -, hsome⟩
      simp at hsome
  · rw [hup] at hiff
    simp only [hup]
    by_cases hex : bottomExitNow ⟨TurnState.bottom, fis, snap, bser, tser, sc, pk⟩ knee torso rot = true
    · rw [if_pos hex]
      constructor
      · intro _; exact hiff.mp hex
      · intro _; rfl
    · rw [if_neg hex]
      constructor
      · intro h; exact absurd h (by simp)
      · intro hc; exact absurd (hiff.mpr hc) hex

/-- C2 witness: a BOTTOM machine whose previous knee was 85°, given a frame
with knee 89°, torso 17°, after 6 frames, exits to TRANSITION. -/
theorem bottom_exit_rule_witness :
    (bottomState.update 89 17 20).1.state = .transition :=
  (bottom_exit_rule bottomState 89 17 20 rfl).mpr
    ⟨⟨85, rfl, by norm_num⟩, Or.inl (by norm_num [jsMax, BT_TORSO_MIN]),
     by norm_num [MIN_DET_FRAMES, bottomState],
     by norm_num [updatedSnap, bottomState, jsAbs]⟩

/-- C2 counterexample to the claim as stated: after 6 frames of
(85, 30, 20) the machine is in BOTTOM with snapshot torso 30; the frame
(89, 25, 20) satisfies the claim's four conditions — knee up by 4° > 3°,
torso 25 ≤ 30 − 5 ("at least 5° under"), ≥ 6 frames, snapshot present — yet
the machine stays in BOTTOM because the code requires torso STRICTLY below
snapshot torso − 5. -/
theorem bottom_exit_rule_cex :
    ((runFSM initFSM seq6).1.state = .bottom ∧
     (runFSM initFSM seq6).1.prevKnee = some 85 ∧
     (3 : ℚ) < 89 - 85 ∧
     updatedSnap (runFSM initFSM seq6).1.bottomSnapshot 89 25 20 = some ⟨85, 30, 20⟩ ∧
     (25 : ℚ) ≤ (30 : ℚ) - 5 ∧
     MIN_DET_FRAMES ≤ (runFSM initFSM seq6).1.framesInState + 1) ∧
    ((runFSM initFSM seq6).1.update 89 25 20).1.state ≠ .transition := by
  have h6 : (runFSM initFSM seq6).1 = ⟨.bottom, 6, some ⟨85, 30, 20⟩,
      ⟨[85, 85, 85, 85, 85, 85], [30, 30, 30, 30, 30, 30], [20, 20, 20, 20, 20, 20]⟩,
      ⟨[], [], []⟩, none, some 85⟩ := by
    norm_num [seq6, runFSM, TurnFSM.update, initFSM, bottomExitNow, updatedSnap, jsAbs, jsMax,
      Series.pushCap, Series.empty, List.replicate, BT_KNEE_MIN, BT_KNEE_MAX, BT_TORSO_MIN,
      BT_TORSO_MAX, ROT_MIN, MIN_DET_FRAMES, reduceCtorEq]
    all_goals simp
  rw [h6]
  have hstep : ((⟨.bottom, 6, some ⟨85, 30, 20⟩,
      ⟨[85, 85, 85, 85, 85, 85], [30, 30, 30, 30, 30, 30], [20, 20, 20, 20, 20, 20]⟩,
      ⟨[], [], []⟩, none, some 85⟩ : TurnFSM).update 89 25 20).1.state = .bottom := by
    norm_num [TurnFSM.update, bottomExitNow, updatedSnap, jsAbs, jsMax, Series.pushCap,
      BT_TORSO_MIN, MIN_DET_FRAMES]
    all_goals simp
  refine ⟨⟨rfl, rfl, by norm_num, ?_, by norm_num, by norm_num [MIN_DET_FRAMES]⟩, ?_⟩
  · norm_num [updatedSnap, jsAbs]
  · rw [hstep]
    simp

/-- Length of the knee list after a capped push. -/
theorem pushCap_knee_length (s : Series) (k t r : ℚ) (h : s.knee.length ≤ 30) :
    (s.pushCap k t r).knee.length = min (s.knee.length + 1) 30 := by
  simp only [Series.pushCap]
  split_ifs with h1 <;>
    simp only [List.length_tail, List.length_append, List.length_cons, List.length_nil] at * <;>
    omega

/-- `TurnFSM.update` preserves the rolling-series length invariant. -/
theorem seriesInv_step (s : TurnFSM) (k t r : ℚ) (h : SeriesInv s) :
    SeriesInv (s.update k t r).1 := by
  obtain ⟨st, fis, snap, bser, tser, sc, pk⟩ := s
  obtain ⟨h1, h2, h3, h4, h5, h6⟩ := h
  dsimp only at h1 h2 h3 h4 h5 h6
  have hbl := pushCap_knee_length bser k t r h1
  have htl := pushCap_knee_length tser k t r h2
  cases st
  case idle =>
    simp only [TurnFSM.update, reduceCtorEq, eq_self_iff_true, true_or, or_true, false_or,
      or_false, if_true, if_false]
    split_ifs with hc <;>
      · simp only [SeriesInv, reduceCtorEq, eq_self_iff_true, true_or, or_true, false_or,
          or_false, true_implies, false_implies, true_and, and_true, Series.empty,
          List.length_nil]
        try dsimp only
        omega
  case bottom =>
    have h3' := h3 rfl
    simp only [TurnFSM.update, reduceCtorEq, eq_self_iff_true, true_or, or_true, false_or,
      or_false, if_true, if_false]
    rcases hup : updatedSnap snap k t r with _ | sn
    all_goals simp only [hup]
    case none =>
      simp only [SeriesInv, reduceCtorEq, eq_self_iff_true, true_or, or_true, false_or,
        or_false, true_implies, false_implies, true_and, and_true]
      try dsimp only
      omega
    case some =>
      split_ifs with hex
      · have hfr := ((bottomExitNow_iff ⟨.bottom, fis, snap, bser, tser, sc, pk⟩ k t r).mp
          hex).2.2.1
        dsimp only at hfr
        rw [show MIN_DET_FRAMES = 6 from rfl] at hfr
        simp only [SeriesInv, reduceCtorEq, eq_self_iff_true, true_or, or_true, false_or,
          or_false, true_implies, false_implies, true_and, and_true, Series.empty,
          List.length_nil]
        try dsimp only
        omega
      · simp only [SeriesInv, reduceCtorEq, eq_self_iff_true, true_or, or_true, false_or,
          or_false, true_implies, false_implies, true_and, and_true]
        try dsimp only
        omega
  case transition =>
    have h5' := h5 rfl
    have h4' := h4 (Or.inl rfl)
    simp only [TurnFSM.update, reduceCtorEq, eq_self_iff_true, true_or, or_true, false_or,
      or_false, if_true, if_false]
    split_ifs with hc <;>
      · simp only [SeriesInv, reduceCtorEq, eq_self_iff_true, true_or, or_true, false_or,
          or_false, true_implies, false_implies, true_and, and_true]
        try dsimp only
        omega
  case top =>
    have h4' := h4 (Or.inr rfl)
    have h6' := h6 rfl
    simp only [TurnFSM.update, reduceCtorEq, eq_self_iff_true, true_or, or_true, false_or,
      or_false, if_true, if_false]
    split_ifs with hc <;>
      · simp only [SeriesInv, reduceCtorEq, eq_self_iff_true, true_or, or_true, false_or,
          or_false, true_implies, false_implies, true_and, and_true]
        try dsimp only
        omega
  case cooldown =>
    simp only [TurnFSM.update, reduceCtorEq, eq_self_iff_true, true_or, or_true, false_or,
      or_false, if_true, if_false]
    split_ifs with hc <;>
      · simp only [SeriesInv, reduceCtorEq, eq_self_iff_true, true_or, or_true, false_or,
          or_false, true_implies, false_implies, true_and, and_true, Series.empty,
          List.length_nil]
        try dsimp only
        omega

/-- Every emitted result carries the lengths of the rolling histories at
emission, with 6 ≤ bottom ≤ 30 and 9 ≤ top = min 30 (3 + TOP frames) ≤ 30. -/
theorem emitted_result_frames (s : TurnFSM) (k t r : ℚ) (res : TurnResult)
    (h : SeriesInv s) (hres : (s.update k t r).2 = some res) :
    6 ≤ res.bottom_turn.frames ∧ res.bottom_turn.frames ≤ 30 ∧
    9 ≤ res.top_turn.frames ∧ res.top_turn.frames ≤ 30 ∧
    (∃ m, 6 ≤ m ∧ res.top_turn.frames = min 30 (3 + m)) ∧
    res.bottom_turn.frames = (s.update k t r).1.bottomSeries.knee.length ∧
    res.top_turn.frames = (s.update k t r).1.topSeries.knee.length := by
  obtain ⟨st, fis, snap, bser, tser, sc, pk⟩ := s
  obtain ⟨h1, h2, h3, h4, h5, h6⟩ := h
  dsimp only at h1 h2 h3 h4 h5 h6
  have htl := pushCap_knee_length tser k t r h2
  cases st
  case idle =>
    simp only [TurnFSM.update, reduceCtorEq, eq_self_iff_true, true_or, or_true, false_or,
      or_false, if_true, if_false] at hres
    split_ifs at hres <;> simp at hres
  case bottom =>
    simp only [TurnFSM.update, reduceCtorEq, eq_self_iff_true, true_or, or_true, false_or,
      or_false, if_true, if_false] at hres
    rcases hup : updatedSnap snap k t r with _ | sn <;> simp only [hup] at hres
    · simp at hres
    · split_ifs at hres <;> simp at hres
  case transition =>
    simp only [TurnFSM.update, reduceCtorEq, eq_self_iff_true, true_or, or_true, false_or,
      or_false, if_true, if_false] at hres
    split_ifs at hres <;> simp at hres
  case top =>
    have h4' := h4 (Or.inr rfl)
    have h6' := h6 rfl
    simp only [TurnFSM.update, reduceCtorEq, eq_self_iff_true, true_or, or_true, false_or,
      or_false, if_true, if_false] at hres ⊢
    by_cases hex : topExitNow ⟨TurnState.top, fis, snap, bser, tser, sc, pk⟩ k t r = true
    · rw [if_pos hex] at hres ⊢
      simp only [Option.some_inj] at hres
      subst hres
      simp only [topExitNow, Bool.and_eq_true, decide_eq_true_eq] at hex
      have hfr := hex.2
      rw [show MIN_DET_FRAMES = 6 from rfl] at hfr
      try dsimp only
      refine ⟨by omega, by omega, by omega, by omega, ⟨fis + 1, by omega, by omega⟩, rfl, rfl⟩
    · rw [if_neg hex] at hres
      simp at hres
  case cooldown =>
    simp only [TurnFSM.update, reduceCtorEq, eq_self_iff_true, true_or, or_true, false_or,
      or_false, if_true, if_false] at hres
    split_ifs at hres <;> simp at hres

/-- Frame-count bounds for every result collected by a run from a state
satisfying the series invariant. -/
theorem runFSM_results (l : List (ℚ × ℚ × ℚ)) : ∀ s : TurnFSM, SeriesInv s →
    ∀ r ∈ (runFSM s l).2,
      6 ≤ r.bottom_turn.frames ∧ r.bottom_turn.frames ≤ 30 ∧
      9 ≤ r.top_turn.frames ∧ r.top_turn.frames ≤ 30 ∧
      (∃ m, 6 ≤ m ∧ r.top_turn.frames = min 30 (3 + m)) := by
  induction l with
  | nil => intro s _ r hr; simp [runFSM] at hr
  | cons hd tl ih =>
      intro s hs r hr
      obtain ⟨k, t, rr⟩ := hd
      simp only [runFSM] at hr
      rcases hstep : (s.update k t rr).2 with _ | res
      · simp only [hstep] at hr
        exact ih (s.update k t rr).1 (seriesInv_step s k t rr hs) r hr
      · simp only [hstep] at hr
        rcases List.mem_cons.mp hr with h | h
        · subst h
          have he := emitted_result_frames s k t rr r hs hstep
          exact ⟨he.1, he.2.1, he.2.2.1, he.2.2.2.1, he.2.2.2.2.1⟩
        · exact ih (s.update k t rr).1 (seriesInv_step s k t rr hs) r h

/-- The series invariant holds for a freshly constructed machine. -/
theorem seriesInv_init : SeriesInv initFSM := by
  refine ⟨?_, ?_, ?_, ?_, ?_, ?_⟩ <;> simp [initFSM, Series.empty]

/-- C3: every Turn Result emitted by a run of the state machine from a fresh
start has both frame counts at least 6. -/
theorem emitted_frames_at_least_six (l : List (ℚ × ℚ × ℚ)) (r : TurnResult)
    (hr : r ∈ (runFSM initFSM l).2) :
    6 ≤ r.bottom_turn.frames ∧ 6 ≤ r.top_turn.frames := by
  have h := runFSM_results l initFSM seriesInv_init r hr
  have h9 := h.2.2.1
  exact ⟨h.1, by omega⟩

/-- Erasing the ghost annotations from `runFSMCount` recovers `runFSM`:
same final machine state, and the plain emitted results are exactly the
first components of the annotated emissions, in order. -/
theorem runFSMCount_fst (l : List (ℚ × ℚ × ℚ)) : ∀ (s : TurnFSM) (nB nT : ℕ),
    (runFSMCount s nB nT l).1.1 = (runFSM s l).1 ∧
    (runFSMCount s nB nT l).2.map Prod.fst = (runFSM s l).2 := by
  induction l with
  | nil =>
      intro s nB nT
      constructor <;> simp [runFSMCount, runFSM]
  | cons hd tl ih =>
      intro s nB nT
      obtain ⟨k, t, r⟩ := hd
      obtain ⟨ih1, ih2⟩ := ih (s.update k t r).1 (countStep s k t r nB nT).1
        (countStep s k t r nB nT).2
      rcases hstep : (s.update k t r).2 with _ | res <;>
        simp [runFSMCount, runFSM, hstep, ih1, ih2]

/-- The counting invariant holds for a fresh machine with zeroed counters. -/
theorem countInv_init : CountInv initFSM 0 0 := by
  simp [CountInv, initFSM, Series.empty]

/-- `TurnFSM.update` preserves the counting invariant when the ghost
counters are advanced by `countStep`. -/
theorem countInv_step (s : TurnFSM) (k t r : ℚ) (nB nT : ℕ) (h : CountInv s nB nT) :
    CountInv (s.update k t r).1 (countStep s k t r nB nT).1 (countStep s k t r nB nT).2 := by
  obtain ⟨st, fis, snap, bser, tser, sc, pk⟩ := s
  obtain ⟨h1, h2, h3, h4⟩ := h
  dsimp only at h1 h2 h3 h4
  have hbl := pushCap_knee_length bser k t r (by omega)
  have htl := pushCap_knee_length tser k t r (by omega)
  cases st
  case idle =>
    simp only [TurnFSM.update, countStep, reduceCtorEq, eq_self_iff_true, true_or, or_true,
      false_or, or_false, if_true, if_false]
    split_ifs with hc <;>
      · simp only [CountInv, reduceCtorEq, eq_self_iff_true, true_or, or_true, false_or,
          or_false, true_implies, false_implies, true_and, and_true, Series.empty,
          List.length_nil]
        try dsimp only
        omega
  case bottom =>
    simp only [TurnFSM.update, countStep, reduceCtorEq, eq_self_iff_true, true_or, or_true,
      false_or, or_false, if_true, if_false]
    rcases hup : updatedSnap snap k t r with _ | sn
    all_goals simp only [hup]
    case none =>
      split_ifs with hex
      · simp [bottomExitNow, hup] at hex
      · simp only [CountInv, reduceCtorEq, eq_self_iff_true, true_or, or_true, false_or,
          or_false, true_implies, false_implies, true_and, and_true]
        try dsimp only
        omega
    case some =>
      split_ifs with hex <;>
        · simp only [CountInv, reduceCtorEq, eq_self_iff_true, true_or, or_true, false_or,
            or_false, true_implies, false_implies, true_and, and_true, Series.empty,
            List.length_nil]
          try dsimp only
          omega
  case transition =>
    have h3' := h3 rfl
    simp only [TurnFSM.update, countStep, reduceCtorEq, eq_self_iff_true, true_or, or_true,
      false_or, or_false, if_true, if_false]
    split_ifs with hc <;>
      · simp only [CountInv, reduceCtorEq, eq_self_iff_true, true_or, or_true, false_or,
          or_false, true_implies, false_implies, true_and, and_true]
        try dsimp only
        omega
  case top =>
    have h4' := h4 rfl
    simp only [TurnFSM.update, countStep, reduceCtorEq, eq_self_iff_true, true_or, or_true,
      false_or, or_false, if_true, if_false]
    split_ifs with hc <;>
      · simp only [CountInv, reduceCtorEq, eq_self_iff_true, true_or, or_true, false_or,
          or_false, true_implies, false_implies, true_and, and_true]
        try dsimp only
        omega
  case cooldown =>
    simp only [TurnFSM.update, countStep, reduceCtorEq, eq_self_iff_true, true_or, or_true,
      false_or, or_false, if_true, if_false]
    split_ifs with hc <;>
      · simp only [CountInv, reduceCtorEq, eq_self_iff_true, true_or, or_true, false_or,
          or_false, true_implies, false_implies, true_and, and_true, Series.empty,
          List.length_nil]
        try dsimp only
        omega

/-- An emitting update from a state satisfying the counting invariant: the
emitted frames fields are exactly the post-update rolling-history lengths,
those lengths are the capped ghost counts at emission, and the top count
splits as 3 TRANSITION frames plus at least 6 TOP frames. -/
theorem countStep_emit (s : TurnFSM) (k t r : ℚ) (res : TurnResult) (nB nT : ℕ)
    (h : CountInv s nB nT) (hres : (s.update k t r).2 = some res) :
    res.bottom_turn.frames = (s.update k t r).1.bottomSeries.knee.length ∧
    res.top_turn.frames = (s.update k t r).1.topSeries.knee.length ∧
    res.bottom_turn.frames = min 30 (countStep s k t r nB nT).1 ∧
    res.top_turn.frames = min 30 (countStep s k t r nB nT).2 ∧
    (∃ m, 6 ≤ m ∧ (countStep s k t r nB nT).2 = 3 + m) ∧
    res.bottom_turn.frames ≤ 30 ∧ res.top_turn.frames ≤ 30 := by
  obtain ⟨st, fis, snap, bser, tser, sc, pk⟩ := s
  obtain ⟨h1, h2, h3, h4⟩ := h
  dsimp only at h1 h2 h3 h4
  have htl := pushCap_knee_length tser k t r (by omega)
  cases st
  case idle =>
    simp only [TurnFSM.update, reduceCtorEq, eq_self_iff_true, true_or, or_true, false_or,
      or_false, if_true, if_false] at hres
    split_ifs at hres <;> simp at hres
  case bottom =>
    simp only [TurnFSM.update, reduceCtorEq, eq_self_iff_true, true_or, or_true, false_or,
      or_false, if_true, if_false] at hres
    rcases hup : updatedSnap snap k t r with _ | sn <;> simp only [hup] at hres
    · simp at hres
    · split_ifs at hres <;> simp at hres
  case transition =>
    simp only [TurnFSM.update, reduceCtorEq, eq_self_iff_true, true_or, or_true, false_or,
      or_false, if_true, if_false] at hres
    split_ifs at hres <;> simp at hres
  case top =>
    have h4' := h4 rfl
    simp only [TurnFSM.update, reduceCtorEq, eq_self_iff_true, true_or, or_true, false_or,
      or_false, if_true, if_false] at hres ⊢
    simp only [countStep, reduceCtorEq, eq_self_iff_true, true_or, or_true, false_or,
      or_false, if_true, if_false]
    by_cases hex : topExitNow ⟨TurnState.top, fis, snap, bser, tser, sc, pk⟩ k t r = true
    · rw [if_pos hex] at hres ⊢
      simp only [Option.some_inj] at hres
      subst hres
      simp only [topExitNow, Bool.and_eq_true, decide_eq_true_eq] at hex
      have hfr := hex.2
      rw [show MIN_DET_FRAMES = 6 from rfl] at hfr
      try dsimp only
      refine ⟨rfl, rfl, by omega, by omega, ⟨fis + 1, by omega, by omega⟩, by omega, by omega⟩
    · rw [if_neg hex] at hres
      simp at hres
  case cooldown =>
    simp only [TurnFSM.update, reduceCtorEq, eq_self_iff_true, true_or, or_true, false_or,
      or_false, if_true, if_false] at hres
    split_ifs at hres <;> simp at hres

/-- Every annotated emission of an instrumented run from a state satisfying
the counting invariant matches the post-emission histories and the ghost
counts at emission. -/
theorem runFSMCount_results (l : List (ℚ × ℚ × ℚ)) :
    ∀ (s : TurnFSM) (nB nT : ℕ), CountInv s nB nT →
    ∀ x ∈ (runFSMCount s nB nT l).2,
      x.1.bottom_turn.frames = x.2.1.bottomSeries.knee.length ∧
      x.1.top_turn.frames = x.2.1.topSeries.knee.length ∧
      x.1.bottom_turn.frames = min 30 x.2.2.1 ∧
      x.1.top_turn.frames = min 30 x.2.2.2 ∧
      (∃ m, 6 ≤ m ∧ x.2.2.2 = 3 + m) ∧
      x.1.bottom_turn.frames ≤ 30 ∧ x.1.top_turn.frames ≤ 30 := by
  induction l with
  | nil => intro s nB nT _ x hx; simp [runFSMCount] at hx
  | cons hd tl ih =>
      intro s nB nT hs x hx
      obtain ⟨k, t, r⟩ := hd
      simp only [runFSMCount] at hx
      rcases hstep : (s.update k t r).2 with _ | res
      · simp only [hstep] at hx
        exact ih (s.update k t r).1 (countStep s k t r nB nT).1 (countStep s k t r nB nT).2
          (countInv_step s k t r nB nT hs) x hx
      · simp only [hstep] at hx
        rcases List.mem_cons.mp hx with hh | hh
        · subst hh
          have he := countStep_emit s k t r res nB nT hs hstep
          exact ⟨he.1, he.2.1, he.2.2.1, he.2.2.2.1, he.2.2.2.2.1, he.2.2.2.2.2.1,
            he.2.2.2.2.2.2⟩
        · exact ih (s.update k t r).1 (countStep s k t r nB nT).1 (countStep s k t r nB nT).2
            (countInv_step s k t r nB nT hs) x hh

/-- C10: every Turn Result emitted by a run from a fresh start has
`bottom_turn.frames` and `top_turn.frames` equal to the lengths of the
bottom-phase and top-phase rolling histories at its emission.  Running the
machine alongside the ghost frame counters of `countStep` — which count
exactly the frames the update pushes onto each history: the IDLE frames
before the maneuver began plus the BOTTOM frames for the bottom history,
the TRANSITION and TOP frames for the top history — the bottom length is
min 30 of the IDLE+BOTTOM count and the top length is min 30 of the
TRANSITION+TOP count, which splits as exactly 3 TRANSITION frames plus at
least 6 TOP frames; hence both frames fields are at most 30.  The
instrumented run lists the same emitted results as the plain run (first
conjunct), so the annotated emission quantified here is the emission of
this very result. -/
theorem emitted_frames_match_histories (l : List (ℚ × ℚ × ℚ)) (r : TurnResult)
    (hr : r ∈ (runFSM initFSM l).2) :
    (runFSMCount initFSM 0 0 l).2.map Prod.fst = (runFSM initFSM l).2 ∧
    r.bottom_turn.frames ≤ 30 ∧ r.top_turn.frames ≤ 30 ∧
    ∃ s' nBot nTop,
      (r, s', nBot, nTop) ∈ (runFSMCount initFSM 0 0 l).2 ∧
      r.bottom_turn.frames = s'.bottomSeries.knee.length ∧
      r.top_turn.frames = s'.topSeries.knee.length ∧
      r.bottom_turn.frames = min 30 nBot ∧
      r.top_turn.frames = min 30 nTop ∧
      ∃ m, 6 ≤ m ∧ nTop = 3 + m := by
  have hproj := (runFSMCount_fst l initFSM 0 0).2
  have hr' : r ∈ (runFSMCount initFSM 0 0 l).2.map Prod.fst := by rw [hproj]; exact hr
  obtain ⟨x, hx, hxr⟩ := List.mem_map.mp hr'
  obtain ⟨hb, ht, hbm, htm, hm, hb30, ht30⟩ :=
    runFSMCount_results l initFSM 0 0 countInv_init x hx
  obtain ⟨r', s', nB, nT⟩ := x
  dsimp only at hb ht hbm htm hm hb30 ht30 hxr
  subst hxr
  exact ⟨hproj, hb30, ht30, s', nB, nT, hx, hb, ht, hbm, htm, hm⟩

/-- Running over an appended input list runs the two halves in sequence and
concatenates the emitted results. -/
theorem runFSM_append (l1 l2 : List (ℚ × ℚ × ℚ)) : ∀ s : TurnFSM,
    runFSM s (l1 ++ l2) = ((runFSM (runFSM s l1).1 l2).1,
      (runFSM s l1).2 ++ (runFSM (runFSM s l1).1 l2).2) := by
  induction l1 with
  | nil => intro s; simp [runFSM]
  | cons hd tl ih =>
      intro s
      obtain ⟨k, t, r⟩ := hd
      rcases hstep : (s.update k t r).2 with _ | res <;>
        simp [runFSM, hstep, ih]

/-- The end-to-end input sequence `seq16` emits a Turn Result. -/
theorem seq16_emits : (runFSM initFSM seq16).2 ≠ [] := by
  have h1 : initFSM.update 85 30 20 = (⟨.bottom, 1, some ⟨85, 30, 20⟩, ⟨[85], [30], [20]⟩,
      ⟨[], [], []⟩, none, some 85⟩, none) := by
    norm_num [TurnFSM.update, initFSM, bottomExitNow, updatedSnap, topExitNow, kneeBtOf,
      jsAbs, jsMax, Series.pushCap, Series.empty, BT_KNEE_MIN, BT_KNEE_MAX, BT_TORSO_MIN,
      BT_TORSO_MAX, ROT_MIN, MIN_DET_FRAMES, COOLDOWN_FRAMES, TT_TORSO_UPRIGHT_MAX]
    all_goals simp
  have h2 : ((⟨.bottom, 1, some ⟨85, 30, 20⟩, ⟨[85], [30], [20]⟩,
      ⟨[], [], []⟩, none, some 85⟩ : TurnFSM).update 85 30 20) = (⟨.bottom, 2, some ⟨85, 30, 20⟩, ⟨[85, 85], [30, 30], [20, 20]⟩,
      ⟨[], [], []⟩, none, some 85⟩, none) := by
    norm_num [TurnFSM.update, initFSM, bottomExitNow, updatedSnap, topExitNow, kneeBtOf,
      jsAbs, jsMax, Series.pushCap, Series.empty, BT_KNEE_MIN, BT_KNEE_MAX, BT_TORSO_MIN,
      BT_TORSO_MAX, ROT_MIN, MIN_DET_FRAMES, COOLDOWN_FRAMES, TT_TORSO_UPRIGHT_MAX]
    all_goals simp
  have h3 : ((⟨.bottom, 2, some ⟨85, 30, 20⟩, ⟨[85, 85], [30, 30], [20, 20]⟩,
      ⟨[], [], []⟩, none, some 85⟩ : TurnFSM).update 85 30 20) = (⟨.bottom, 3, some ⟨85, 30, 20⟩, ⟨[85, 85, 85], [30, 30, 30], [20, 20, 20]⟩,
      ⟨[], [], []⟩, none, some 85⟩, none) := by
    norm_num [TurnFSM.update, initFSM, bottomExitNow, updatedSnap, topExitNow, kneeBtOf,
      jsAbs, jsMax, Series.pushCap, Series.empty, BT_KNEE_MIN, BT_KNEE_MAX, BT_TORSO_MIN,
      BT_TORSO_MAX, ROT_MIN, MIN_DET_FRAMES, COOLDOWN_FRAMES, TT_TORSO_UPRIGHT_MAX]
    all_goals simp
  have h4 : ((⟨.bottom, 3, some ⟨85, 30, 20⟩, ⟨[85, 85, 85], [30, 30, 30], [20, 20, 20]⟩,
      ⟨[], [], []⟩, none, some 85⟩ : TurnFSM).update 85 30 20) = (⟨.bottom, 4, some ⟨85, 30, 20⟩, ⟨[85, 85, 85, 85], [30, 30, 30, 30], [20, 20, 20, 20]⟩,
      ⟨[], [], []⟩, none, some 85⟩, none) := by
    norm_num [TurnFSM.update, initFSM, bottomExitNow, updatedSnap, topExitNow, kneeBtOf,
      jsAbs, jsMax, Series.pushCap, Series.empty, BT_KNEE_MIN, BT_KNEE_MAX, BT_TORSO_MIN,
      BT_TORSO_MAX, ROT_MIN, MIN_DET_FRAMES, COOLDOWN_FRAMES, TT_TORSO_UPRIGHT_MAX]
    all_goals simp
  have h5 : ((⟨.bottom, 4, some ⟨85, 30, 20⟩, ⟨[85, 85, 85, 85], [30, 30, 30, 30], [20, 20, 20, 20]⟩,
      ⟨[], [], []⟩, none, some 85⟩ : TurnFSM).update 85 30 20) = (⟨.bottom, 5, some ⟨85, 30, 20⟩, ⟨[85, 85, 85, 85, 85], [30, 30, 30, 30, 30], [20, 20, 20, 20, 20]⟩,
      ⟨[], [], []⟩, none, some 85⟩, none) := by
    norm_num [TurnFSM.update, initFSM, bottomExitNow, updatedSnap, topExitNow, kneeBtOf,
      jsAbs, jsMax, Series.pushCap, Series.empty, BT_KNEE_MIN, BT_KNEE_MAX, BT_TORSO_MIN,
      BT_TORSO_MAX, ROT_MIN, MIN_DET_FRAMES, COOLDOWN_FRAMES, TT_TORSO_UPRIGHT_MAX]
    all_goals simp
  have h6 : ((⟨.bottom, 5, some ⟨85, 30, 20⟩, ⟨[85, 85, 85, 85, 85], [30, 30, 30, 30, 30], [20, 20, 20, 20, 20]⟩,
      ⟨[], [], []⟩, none, some 85⟩ : TurnFSM).update 85 30 20) = (⟨.bottom, 6, some ⟨85, 30, 20⟩, ⟨[85, 85, 85, 85, 85, 85], [30, 30, 30, 30, 30, 30], [20, 20, 20, 20, 20, 20]⟩,
      ⟨[], [], []⟩, none, some 85⟩, none) := by
    norm_num [TurnFSM.update, initFSM, bottomExitNow, updatedSnap, topExitNow, kneeBtOf,
      jsAbs, jsMax, Series.pushCap, Series.empty, BT_KNEE_MIN, BT_KNEE_MAX, BT_TORSO_MIN,
      BT_TORSO_MAX, ROT_MIN, MIN_DET_FRAMES, COOLDOWN_FRAMES, TT_TORSO_UPRIGHT_MAX]
    all_goals simp
  have h7 : ((⟨.bottom, 6, some ⟨85, 30, 20⟩, ⟨[85, 85, 85, 85, 85, 85], [30, 30, 30, 30, 30, 30], [20, 20, 20, 20, 20, 20]⟩,
      ⟨[], [], []⟩, none, some 85⟩ : TurnFSM).update 110 15 20) = (⟨.transition, 0, some ⟨85, 30, 20⟩, ⟨[85, 85, 85, 85, 85, 85, 110], [30, 30, 30, 30, 30, 30, 15], [20, 20, 20, 20, 20, 20, 20]⟩,
      ⟨[], [], []⟩, some (scoreBottomTurn 85 30 20 [85, 85, 85, 85, 85, 85, 110] [30, 30, 30, 30, 30, 30, 15] [20, 20, 20, 20, 20, 20, 20]), some 110⟩, none) := by
    norm_num [TurnFSM.update, initFSM, bottomExitNow, updatedSnap, topExitNow, kneeBtOf,
      jsAbs, jsMax, Series.pushCap, Series.empty, BT_KNEE_MIN, BT_KNEE_MAX, BT_TORSO_MIN,
      BT_TORSO_MAX, ROT_MIN, MIN_DET_FRAMES, COOLDOWN_FRAMES, TT_TORSO_UPRIGHT_MAX]
    all_goals simp
  have h8 : ∀ sc : Option (ℕ × BottomDetail), ((⟨.transition, 0, some ⟨85, 30, 20⟩, ⟨[85, 85, 85, 85, 85, 85, 110], [30, 30, 30, 30, 30, 30, 15], [20, 20, 20, 20, 20, 20, 20]⟩,
      ⟨[], [], []⟩, sc, some 110⟩ : TurnFSM).update 110 15 20) = (⟨.transition, 1, some ⟨85, 30, 20⟩, ⟨[85, 85, 85, 85, 85, 85, 110], [30, 30, 30, 30, 30, 30, 15], [20, 20, 20, 20, 20, 20, 20]⟩,
      ⟨[110], [15], [20]⟩, sc, some 110⟩, none) := by
    intro sc
    norm_num [TurnFSM.update, initFSM, bottomExitNow, updatedSnap, topExitNow, kneeBtOf,
      jsAbs, jsMax, Series.pushCap, Series.empty, BT_KNEE_MIN, BT_KNEE_MAX, BT_TORSO_MIN,
      BT_TORSO_MAX, ROT_MIN, MIN_DET_FRAMES, COOLDOWN_FRAMES, TT_TORSO_UPRIGHT_MAX]
    all_goals simp
  have h9 : ∀ sc : Option (ℕ × BottomDetail), ((⟨.transition, 1, some ⟨85, 30, 20⟩, ⟨[85, 85, 85, 85, 85, 85, 110], [30, 30, 30, 30, 30, 30, 15], [20, 20, 20, 20, 20, 20, 20]⟩,
      ⟨[110], [15], [20]⟩, sc, some 110⟩ : TurnFSM).update 110 15 20) = (⟨.transition, 2, some ⟨85, 30, 20⟩, ⟨[85, 85, 85, 85, 85, 85, 110], [30, 30, 30, 30, 30, 30, 15], [20, 20, 20, 20, 20, 20, 20]⟩,
      ⟨[110, 110], [15, 15], [20, 20]⟩, sc, some 110⟩, none) := by
    intro sc
    norm_num [TurnFSM.update, initFSM, bottomExitNow, updatedSnap, topExitNow, kneeBtOf,
      jsAbs, jsMax, Series.pushCap, Series.empty, BT_KNEE_MIN, BT_KNEE_MAX, BT_TORSO_MIN,
      BT_TORSO_MAX, ROT_MIN, MIN_DET_FRAMES, COOLDOWN_FRAMES, TT_TORSO_UPRIGHT_MAX]
    all_goals simp
  have h10 : ∀ sc : Option (ℕ × BottomDetail), ((⟨.transition, 2, some ⟨85, 30, 20⟩, ⟨[85, 85, 85, 85, 85, 85, 110], [30, 30, 30, 30, 30, 30, 15], [20, 20, 20, 20, 20, 20, 20]⟩,
      ⟨[110, 110], [15, 15], [20, 20]⟩, sc, some 110⟩ : TurnFSM).update 110 15 20) = (⟨.top, 0, some ⟨85, 30, 20⟩, ⟨[85, 85, 85, 85, 85, 85, 110], [30, 30, 30, 30, 30, 30, 15], [20, 20, 20, 20, 20, 20, 20]⟩,
      ⟨[110, 110, 110], [15, 15, 15], [20, 20, 20]⟩, sc, some 110⟩, none) := by
    intro sc
    norm_num [TurnFSM.update, initFSM, bottomExitNow, updatedSnap, topExitNow, kneeBtOf,
      jsAbs, jsMax, Series.pushCap, Series.empty, BT_KNEE_MIN, BT_KNEE_MAX, BT_TORSO_MIN,
      BT_TORSO_MAX, ROT_MIN, MIN_DET_FRAMES, COOLDOWN_FRAMES, TT_TORSO_UPRIGHT_MAX]
    all_goals simp
  have h11 : ∀ sc : Option (ℕ × BottomDetail), ((⟨.top, 0, some ⟨85, 30, 20⟩, ⟨[85, 85, 85, 85, 85, 85, 110], [30, 30, 30, 30, 30, 30, 15], [20, 20, 20, 20, 20, 20, 20]⟩,
      ⟨[110, 110, 110], [15, 15, 15], [20, 20, 20]⟩, sc, some 110⟩ : TurnFSM).update 130 15 20) = (⟨.top, 1, some ⟨85, 30, 20⟩, ⟨[85, 85, 85, 85, 85, 85, 110], [30, 30, 30, 30, 30, 30, 15], [20, 20, 20, 20, 20, 20, 20]⟩,
      ⟨[110, 110, 110, 130], [15, 15, 15, 15], [20, 20, 20, 20]⟩, sc, some 130⟩, none) := by
    intro sc
    norm_num [TurnFSM.update, initFSM, bottomExitNow, updatedSnap, topExitNow, kneeBtOf,
      jsAbs, jsMax, Series.pushCap, Series.empty, BT_KNEE_MIN, BT_KNEE_MAX, BT_TORSO_MIN,
      BT_TORSO_MAX, ROT_MIN, MIN_DET_FRAMES, COOLDOWN_FRAMES, TT_TORSO_UPRIGHT_MAX]
    all_goals simp
  have h12 : ∀ sc : Option (ℕ × BottomDetail), ((⟨.top, 1, some ⟨85, 30, 20⟩, ⟨[85, 85, 85, 85, 85, 85, 110], [30, 30, 30, 30, 30, 30, 15], [20, 20, 20, 20, 20, 20, 20]⟩,
      ⟨[110, 110, 110, 130], [15, 15, 15, 15], [20, 20, 20, 20]⟩, sc, some 130⟩ : TurnFSM).update 130 15 20) = (⟨.top, 2, some ⟨85, 30, 20⟩, ⟨[85, 85, 85, 85, 85, 85, 110], [30, 30, 30, 30, 30, 30, 15], [20, 20, 20, 20, 20, 20, 20]⟩,
      ⟨[110, 110, 110, 130, 130], [15, 15, 15, 15, 15], [20, 20, 20, 20, 20]⟩, sc, some 130⟩, none) := by
    intro sc
    norm_num [TurnFSM.update, initFSM, bottomExitNow, updatedSnap, topExitNow, kneeBtOf,
      jsAbs, jsMax, Series.pushCap, Series.empty, BT_KNEE_MIN, BT_KNEE_MAX, BT_TORSO_MIN,
      BT_TORSO_MAX, ROT_MIN, MIN_DET_FRAMES, COOLDOWN_FRAMES, TT_TORSO_UPRIGHT_MAX]
    all_goals simp
  have h13 : ∀ sc : Option (ℕ × BottomDetail), ((⟨.top, 2, some ⟨85, 30, 20⟩, ⟨[85, 85, 85, 85, 85, 85, 110], [30, 30, 30, 30, 30, 30, 15], [20, 20, 20, 20, 20, 20, 20]⟩,
      ⟨[110, 110, 110, 130, 130], [15, 15, 15, 15, 15], [20, 20, 20, 20, 20]⟩, sc, some 130⟩ : TurnFSM).update 130 15 20) = (⟨.top, 3, some ⟨85, 30, 20⟩, ⟨[85, 85, 85, 85, 85, 85, 110], [30, 30, 30, 30, 30, 30, 15], [20, 20, 20, 20, 20, 20, 20]⟩,
      ⟨[110, 110, 110, 130, 130, 130], [15, 15, 15, 15, 15, 15], [20, 20, 20, 20, 20, 20]⟩, sc, some 130⟩, none) := by
    intro sc
    norm_num [TurnFSM.update, initFSM, bottomExitNow, updatedSnap, topExitNow, kneeBtOf,
      jsAbs, jsMax, Series.pushCap, Series.empty, BT_KNEE_MIN, BT_KNEE_MAX, BT_TORSO_MIN,
      BT_TORSO_MAX, ROT_MIN, MIN_DET_FRAMES, COOLDOWN_FRAMES, TT_TORSO_UPRIGHT_MAX]
    all_goals simp
  have h14 : ∀ sc : Option (ℕ × BottomDetail), ((⟨.top, 3, some ⟨85, 30, 20⟩, ⟨[85, 85, 85, 85, 85, 85, 110], [30, 30, 30, 30, 30, 30, 15], [20, 20, 20, 20, 20, 20, 20]⟩,
      ⟨[110, 110, 110, 130, 130, 130], [15, 15, 15, 15, 15, 15], [20, 20, 20, 20, 20, 20]⟩, sc, some 130⟩ : TurnFSM).update 130 15 20) = (⟨.top, 4, some ⟨85, 30, 20⟩, ⟨[85, 85, 85, 85, 85, 85, 110], [30, 30, 30, 30, 30, 30, 15], [20, 20, 20, 20, 20, 20, 20]⟩,
      ⟨[110, 110, 110, 130, 130, 130, 130], [15, 15, 15, 15, 15, 15, 15], [20, 20, 20, 20, 20, 20, 20]⟩, sc, some 130⟩, none) := by
    intro sc
    norm_num [TurnFSM.update, initFSM, bottomExitNow, updatedSnap, topExitNow, kneeBtOf,
      jsAbs, jsMax, Series.pushCap, Series.empty, BT_KNEE_MIN, BT_KNEE_MAX, BT_TORSO_MIN,
      BT_TORSO_MAX, ROT_MIN, MIN_DET_FRAMES, COOLDOWN_FRAMES, TT_TORSO_UPRIGHT_MAX]
    all_goals simp
  have h15 : ∀ sc : Option (ℕ × BottomDetail), ((⟨.top, 4, some ⟨85, 30, 20⟩, ⟨[85, 85, 85, 85, 85, 85, 110], [30, 30, 30, 30, 30, 30, 15], [20, 20, 20, 20, 20, 20, 20]⟩,
      ⟨[110, 110, 110, 130, 130, 130, 130], [15, 15, 15, 15, 15, 15, 15], [20, 20, 20, 20, 20, 20, 20]⟩, sc, some 130⟩ : TurnFSM).update 130 15 20) = (⟨.top, 5, some ⟨85, 30, 20⟩, ⟨[85, 85, 85, 85, 85, 85, 110], [30, 30, 30, 30, 30, 30, 15], [20, 20, 20, 20, 20, 20, 20]⟩,
      ⟨[110, 110, 110, 130, 130, 130, 130, 130], [15, 15, 15, 15, 15, 15, 15, 15], [20, 20, 20, 20, 20, 20, 20, 20]⟩, sc, some 130⟩, none) := by
    intro sc
    norm_num [TurnFSM.update, initFSM, bottomExitNow, updatedSnap, topExitNow, kneeBtOf,
      jsAbs, jsMax, Series.pushCap, Series.empty, BT_KNEE_MIN, BT_KNEE_MAX, BT_TORSO_MIN,
      BT_TORSO_MAX, ROT_MIN, MIN_DET_FRAMES, COOLDOWN_FRAMES, TT_TORSO_UPRIGHT_MAX]
    all_goals simp
  have h16 : ∀ sc : Option (ℕ × BottomDetail), ((⟨.top, 5, some ⟨85, 30, 20⟩, ⟨[85, 85, 85, 85, 85, 85, 110], [30, 30, 30, 30, 30, 30, 15], [20, 20, 20, 20, 20, 20, 20]⟩,
      ⟨[110, 110, 110, 130, 130, 130, 130, 130], [15, 15, 15, 15, 15, 15, 15, 15], [20, 20, 20, 20, 20, 20, 20, 20]⟩, sc, some 130⟩ : TurnFSM).update 130 15 20).2.isSome = true := by
    intro sc
    norm_num [TurnFSM.update, initFSM, bottomExitNow, updatedSnap, topExitNow, kneeBtOf,
      jsAbs, jsMax, Series.pushCap, Series.empty, BT_KNEE_MIN, BT_KNEE_MAX, BT_TORSO_MIN,
      BT_TORSO_MAX, ROT_MIN, MIN_DET_FRAMES, COOLDOWN_FRAMES, TT_TORSO_UPRIGHT_MAX]
    all_goals simp
  have hlist : seq16 = [(85, 30, 20), (85, 30, 20), (85, 30, 20), (85, 30, 20),
      (85, 30, 20), (85, 30, 20), (110, 15, 20), (110, 15, 20), (110, 15, 20),
      (110, 15, 20), (130, 15, 20), (130, 15, 20), (130, 15, 20), (130, 15, 20),
      (130, 15, 20), (130, 15, 20)] := rfl
  rw [hlist]
  simp only [runFSM, h1, h2, h3, h4, h5, h6, h7, h8, h9, h10, h11, h12, h13, h14, h15]
  rcases hopt : ((⟨.top, 5, some ⟨85, 30, 20⟩, ⟨[85, 85, 85, 85, 85, 85, 110], [30, 30, 30, 30, 30, 30, 15], [20, 20, 20, 20, 20, 20, 20]⟩,
      ⟨[110, 110, 110, 130, 130, 130, 130, 130], [15, 15, 15, 15, 15, 15, 15, 15], [20, 20, 20, 20, 20, 20, 20, 20]⟩,
      some (scoreBottomTurn 85 30 20 [85, 85, 85, 85, 85, 85, 110] [30, 30, 30, 30, 30, 30, 15] [20, 20, 20, 20, 20, 20, 20]), some 130⟩ : TurnFSM).update 130 15 20).2 with _ | res
  · have hv := h16 (some (scoreBottomTurn 85 30 20 [85, 85, 85, 85, 85, 85, 110] [30, 30, 30, 30, 30, 30, 15] [20, 20, 20, 20, 20, 20, 20]))
    rw [hopt] at hv
    simp at hv
  · simp [hopt]
/-- C3 witness: the result emitted by the end-to-end maneuver sequence has
both frame counts at least 6. -/
theorem emitted_frames_at_least_six_witness :
    6 ≤ ((runFSM initFSM seq16).2.head!).bottom_turn.frames ∧
    6 ≤ ((runFSM initFSM seq16).2.head!).top_turn.frames :=
  emitted_frames_at_least_six seq16 _ (List.head!_mem_self seq16_emits)

/-- C10 witness: instantiated at the end-to-end maneuver sequence and the
Turn Result it emits. -/
theorem emitted_frames_match_histories_witness :
    (runFSMCount initFSM 0 0 seq16).2.map Prod.fst = (runFSM initFSM seq16).2 ∧
    ((runFSM initFSM seq16).2.head!).bottom_turn.frames ≤ 30 ∧
    ((runFSM initFSM seq16).2.head!).top_turn.frames ≤ 30 ∧
    ∃ s' nBot nTop,
      (((runFSM initFSM seq16).2.head!), s', nBot, nTop) ∈ (runFSMCount initFSM 0 0 seq16).2 ∧
      ((runFSM initFSM seq16).2.head!).bottom_turn.frames = s'.bottomSeries.knee.length ∧
      ((runFSM initFSM seq16).2.head!).top_turn.frames = s'.topSeries.knee.length ∧
      ((runFSM initFSM seq16).2.head!).bottom_turn.frames = min 30 nBot ∧
      ((runFSM initFSM seq16).2.head!).top_turn.frames = min 30 nTop ∧
      ∃ m, 6 ≤ m ∧ nTop = 3 + m :=
  emitted_frames_match_histories seq16 _ (List.head!_mem_self seq16_emits)

/-- `TurnFSM.update` preserves the snapshot invariant. -/
theorem snapInv_step (s : TurnFSM) (k t r : ℚ) (h : SnapInv s) :
    SnapInv (s.update k t r).1 := by
  obtain ⟨st, fis, snap, bser, tser, sc, pk⟩ := s
  simp only [SnapInv] at h ⊢
  try dsimp only at h ⊢
  cases st
  case idle =>
    simp only [TurnFSM.update, reduceCtorEq, eq_self_iff_true, true_or, or_true, false_or,
      or_false, if_true, if_false]
    split_ifs with hc
    · intro _
      exact ⟨⟨k, t, r⟩, rfl, hc.1, hc.2.1⟩
    · intro hst
      rcases hst with h' | h' | h' <;> simp at h'
  case bottom =>
    obtain ⟨sn, hsnap, hk1, hk2⟩ := h (Or.inl rfl)
    subst hsnap
    rw [show BT_KNEE_MIN = 70 from rfl] at hk1
    rw [show BT_KNEE_MAX = 100 from rfl] at hk2
    have hne : ¬sn.knee = 0 := by intro h0; rw [h0] at hk1; norm_num at hk1
    simp only [TurnFSM.update, reduceCtorEq, eq_self_iff_true, true_or, or_true, false_or,
      or_false, if_true, if_false]
    have hb15 : jsAbs (sn.knee - 85) ≤ 15 := by
      simp only [jsAbs]
      split_ifs <;> linarith
    by_cases hcl : jsAbs (k - 85) < jsAbs (sn.knee - 85)
    · have hupd : updatedSnap (some sn) k t r = some ⟨k, t, r⟩ := by
        simp only [updatedSnap, if_neg hne]
        rw [if_pos hcl]
      have hk : 70 < k ∧ k < 100 := by
        have hlt : jsAbs (k - 85) < 15 := lt_of_lt_of_le hcl hb15
        simp only [jsAbs] at hlt
        split_ifs at hlt <;> constructor <;> linarith
      rw [hupd]
      split_ifs with hex <;> intro _ <;>
        exact ⟨⟨k, t, r⟩, rfl, by rw [show BT_KNEE_MIN = 70 from rfl]; linarith [hk.1],
          by rw [show BT_KNEE_MAX = 100 from rfl]; linarith [hk.2]⟩
    · have hupd : updatedSnap (some sn) k t r = some sn := by
        simp only [updatedSnap, if_neg hne]
        rw [if_neg hcl]
      rw [hupd]
      split_ifs with hex <;> intro _ <;>
        exact ⟨sn, rfl, by rw [show BT_KNEE_MIN = 70 from rfl]; exact hk1,
          by rw [show BT_KNEE_MAX = 100 from rfl]; exact hk2⟩
  case transition =>
    obtain ⟨sn, hsnap, hk1, hk2⟩ := h (Or.inr (Or.inl rfl))
    simp only [TurnFSM.update, reduceCtorEq, eq_self_iff_true, true_or, or_true, false_or,
      or_false, if_true, if_false]
    split_ifs with hc <;> intro _ <;> exact ⟨sn, hsnap, hk1, hk2⟩
  case top =>
    simp only [TurnFSM.update, reduceCtorEq, eq_self_iff_true, true_or, or_true, false_or,
      or_false, if_true, if_false]
    split_ifs with hc
    · intro hst
      rcases hst with h' | h' | h' <;> simp at h'
    · intro _
      exact h (Or.inr (Or.inr rfl))
  case cooldown =>
    simp only [TurnFSM.update, reduceCtorEq, eq_self_iff_true, true_or, or_true, false_or,
      or_false, if_true, if_false]
    split_ifs with hc <;> intro hst <;> rcases hst with h' | h' | h' <;> simp at h'

/-- The snapshot invariant holds after any run from a fresh machine. -/
theorem runFSM_snapInv (l : List (ℚ × ℚ × ℚ)) : ∀ s : TurnFSM, SnapInv s →
    SnapInv (runFSM s l).1 := by
  induction l with
  | nil => intro s h; exact h
  | cons hd tl ih =>
      intro s h
      obtain ⟨k, t, r⟩ := hd
      simp only [runFSM]
      exact ih (s.update k t r).1 (snapInv_step s k t r h)

/-- C9: in every reachable BOTTOM, TRANSITION or TOP state the bottom
snapshot is present with knee in [70, 100]; in particular the knee is not 0,
so the `bottomSnapshot?.knee || null` fallback in the TOP branch yields the
snapshot knee (never null), and the `{knee: 0, ...}` substitution in the
emitted result is never used. -/
theorem snapshot_invariant_active (l : List (ℚ × ℚ × ℚ))
    (h : (runFSM initFSM l).1.state = .bottom ∨ (runFSM initFSM l).1.state = .transition ∨
      (runFSM initFSM l).1.state = .top) :
    ∃ sn, (runFSM initFSM l).1.bottomSnapshot = some sn ∧
      BT_KNEE_MIN ≤ sn.knee ∧ sn.knee ≤ BT_KNEE_MAX ∧ sn.knee ≠ 0 ∧
      kneeBtOf (runFSM initFSM l).1.bottomSnapshot = some sn.knee := by
  have h0 : SnapInv initFSM := by
    intro hst
    rcases hst with h' | h' | h' <;> simp [initFSM] at h'
  obtain ⟨sn, hsnap, hk1, hk2⟩ := runFSM_snapInv l initFSM h0 h
  have hne : sn.knee ≠ 0 := by
    intro h0'
    rw [h0'] at hk1
    norm_num [BT_KNEE_MIN] at hk1
  exact ⟨sn, hsnap, hk1, hk2, hne, by simp [kneeBtOf, hsnap, hne]⟩

/-- C9 witness: after one qualifying frame the machine is in BOTTOM and the
snapshot invariant is concrete. -/
theorem snapshot_invariant_active_witness :
    ∃ sn, (runFSM initFSM [(85, 30, 20)]).1.bottomSnapshot = some sn ∧
      BT_KNEE_MIN ≤ sn.knee ∧ sn.knee ≤ BT_KNEE_MAX ∧ sn.knee ≠ 0 ∧
      kneeBtOf (runFSM initFSM [(85, 30, 20)]).1.bottomSnapshot = some sn.knee :=
  snapshot_invariant_active [(85, 30, 20)]
    (Or.inl (by norm_num [runFSM, TurnFSM.update, initFSM, Series.pushCap, Series.empty,
      BT_KNEE_MIN, BT_KNEE_MAX, BT_TORSO_MIN, BT_TORSO_MAX, ROT_MIN]))

/-- `atan2deg` ranges over (-180, 180]. -/
theorem atan2deg_mem (y x : ℝ) : -180 < atan2deg y x ∧ atan2deg y x ≤ 180 := by
  have h1 := Complex.neg_pi_lt_arg ⟨x, y⟩
  have h2 := Complex.arg_le_pi ⟨x, y⟩
  have hpos : (0 : ℝ) < 180 / Real.pi := by positivity
  unfold atan2deg
  constructor
  · calc (-180 : ℝ) = -Real.pi * (180 / Real.pi) := by field_simp <;> ring
    _ < Complex.arg ⟨x, y⟩ * (180 / Real.pi) := mul_lt_mul_of_pos_right h1 hpos
  · calc Complex.arg ⟨x, y⟩ * (180 / Real.pi) ≤ Real.pi * (180 / Real.pi) :=
      mul_le_mul_of_nonneg_right h2 hpos.le
    _ = 180 := by field_simp <;> ring

/-- Negating a nonzero complex number shifts its argument by ±π. -/
theorem arg_neg_pm (z : ℂ) (hz : z ≠ 0) :
    Complex.arg (-z) = Complex.arg z - Real.pi ∨
      Complex.arg (-z) = Complex.arg z + Real.pi := by
  rcases lt_trichotomy z.im 0 with h | h | h
  · exact Or.inr (Complex.arg_neg_eq_arg_add_pi_of_im_neg h)
  · have hre : z.re ≠ 0 := by
      intro h0
      exact hz (by apply Complex.ext <;> simp [h0, h])
    rcases hre.lt_or_lt with hlt | hgt
    · have e1 : Complex.arg z = Real.pi := Complex.arg_eq_pi_iff.mpr ⟨hlt, h⟩
      have e2 : Complex.arg (-z) = 0 := Complex.arg_eq_zero_iff.mpr
        ⟨by simp only [Complex.neg_re]; linarith, by simp [Complex.neg_im, h]⟩
      exact Or.inl (by rw [e1, e2]; ring)
    · have e1 : Complex.arg z = 0 := Complex.arg_eq_zero_iff.mpr ⟨hgt.le, h⟩
      have e2 : Complex.arg (-z) = Real.pi := Complex.arg_eq_pi_iff.mpr
        ⟨by simp only [Complex.neg_re]; linarith, by simp [Complex.neg_im, h]⟩
      exact Or.inr (by rw [e1, e2]; ring)
  · exact Or.inl (Complex.arg_neg_eq_arg_sub_pi_of_im_pos h)

/-- Negating a nonzero 2D vector shifts its degree angle by ±180. -/
theorem atan2deg_neg_pm (y x : ℝ) (h : ¬(x = 0 ∧ y = 0)) :
    atan2deg (-y) (-x) = atan2deg y x - 180 ∨
      atan2deg (-y) (-x) = atan2deg y x + 180 := by
  have hz : (⟨x, y⟩ : ℂ) ≠ 0 := by
    intro h0
    exact h (by simpa [Complex.ext_iff] using h0)
  have hneg : (⟨-x, -y⟩ : ℂ) = -(⟨x, y⟩ : ℂ) := by
    apply Complex.ext <;> simp
  have hpi : Real.pi * (180 / Real.pi) = 180 := by field_simp
  unfold atan2deg
  rw [hneg]
  rcases arg_neg_pm ⟨x, y⟩ hz with e | e
  · exact Or.inl (by rw [e, sub_mul, hpi])
  · exact Or.inr (by rw [e, add_mul, hpi])

/-- `normDiff` is unchanged when both angles shift down by 180. -/
theorem normDiff_sub_sub (a b : ℝ) : normDiff (a - 180) (b - 180) = normDiff a b := by
  unfold normDiff
  rw [show a - 180 - (b - 180) = a - b from by ring]

/-- `normDiff` is unchanged when both angles shift up by 180. -/
theorem normDiff_add_add (a b : ℝ) : normDiff (a + 180) (b + 180) = normDiff a b := by
  unfold normDiff
  rw [show a + 180 - (b + 180) = a - b from by ring]

/-- `normDiff` is unchanged under opposite ±180 shifts when the original
difference lies in (0, 360). -/
theorem normDiff_sub360 (a b : ℝ) (h1 : 0 < a - b) (h2 : a - b < 360) :
    normDiff (a - 180) (b + 180) = normDiff a b := by
  unfold normDiff
  rw [show a - 180 - (b + 180) = a - b - 360 from by ring, abs_of_pos h1,
    abs_of_neg (by linarith : a - b - 360 < 0)]
  split_ifs <;> linarith

/-- `normDiff` is unchanged under opposite ∓180 shifts when the original
difference lies in (-360, 0). -/
theorem normDiff_add360 (a b : ℝ) (h1 : a - b < 0) (h2 : -360 < a - b) :
    normDiff (a + 180) (b - 180) = normDiff a b := by
  unfold normDiff
  rw [show a + 180 - (b - 180) = a - b + 360 from by ring, abs_of_neg h1,
    abs_of_pos (by linarith : 0 < a - b + 360)]
  split_ifs <;> linarith

/-- The normalised angle difference is invariant under negating both vectors,
provided neither is zero. -/
theorem normDiff_atan2_negs (x1 y1 x2 y2 : ℝ) (h1 : ¬(x1 = 0 ∧ y1 = 0))
    (h2 : ¬(x2 = 0 ∧ y2 = 0)) :
    normDiff (atan2deg (-y1) (-x1)) (atan2deg (-y2) (-x2)) =
      normDiff (atan2deg y1 x1) (atan2deg y2 x2) := by
  obtain ⟨hA1, hA2⟩ := atan2deg_mem y1 x1
  obtain ⟨hB1, hB2⟩ := atan2deg_mem y2 x2
  obtain ⟨hA1', hA2'⟩ := atan2deg_mem (-y1) (-x1)
  obtain ⟨hB1', hB2'⟩ := atan2deg_mem (-y2) (-x2)
  rcases atan2deg_neg_pm y1 x1 h1 with e1 | e1 <;>
    rcases atan2deg_neg_pm y2 x2 h2 with e2 | e2 <;>
    rw [e1] at hA1' hA2' <;> rw [e2] at hB1' hB2' <;> rw [e1, e2]
  · exact normDiff_sub_sub _ _
  · exact normDiff_sub360 _ _ (by linarith) (by linarith)
  · exact normDiff_add360 _ _ (by linarith) (by linarith)
  · exact normDiff_add_add _ _

/-- The normalised angle difference lies in [0, 180] for angles in
(-180, 180]. -/
theorem normDiff_mem (a b : ℝ) (ha1 : -180 < a) (ha2 : a ≤ 180) (hb1 : -180 < b)
    (hb2 : b ≤ 180) : 0 ≤ normDiff a b ∧ normDiff a b ≤ 180 := by
  unfold normDiff
  split_ifs with h
  · exact ⟨abs_nonneg _, h⟩
  · push_neg at h
    have h360 : |a - b| ≤ 360 := abs_le.mpr ⟨by linarith, by linarith⟩
    exact ⟨by linarith, by linarith⟩

/-- Finding a joint in a relabelled frame finds the relabelled counterpart. -/
theorem findKP_map_swapLR (m n : String)
    (h : ∀ s' : String, swapLRName s' = m ↔ s' = n) :
    ∀ kps : List PoseKeypoint, findKP m (kps.map swapLR) = (findKP n kps).map swapLR := by
  intro kps
  induction kps with
  | nil => rfl
  | cons kp tl ih =>
      simp only [List.map_cons, findKP, swapLR]
      by_cases hk : kp.name = n
      · rw [if_pos ((h kp.name).mpr hk), if_pos hk]
        rfl
      · rw [if_neg (fun hh => hk ((h kp.name).mp hh)), if_neg hk]
        exact ih

theorem swapLRName_to_ls (s' : String) :
    swapLRName s' = LEFT_SHOULDER ↔ s' = RIGHT_SHOULDER := by
  simp only [swapLRName]
  split_ifs <;> subst_vars <;> first | decide | (constructor <;> intro hh <;> simp_all)

theorem swapLRName_to_rs (s' : String) :
    swapLRName s' = RIGHT_SHOULDER ↔ s' = LEFT_SHOULDER := by
  simp only [swapLRName]
  split_ifs <;> subst_vars <;> first | decide | (constructor <;> intro hh <;> simp_all)

theorem swapLRName_to_lh (s' : String) :
    swapLRName s' = LEFT_HIP ↔ s' = RIGHT_HIP := by
  simp only [swapLRName]
  split_ifs <;> subst_vars <;> first | decide | (constructor <;> intro hh <;> simp_all)

theorem swapLRName_to_rh (s' : String) :
    swapLRName s' = RIGHT_HIP ↔ s' = LEFT_HIP := by
  simp only [swapLRName]
  split_ifs <;> subst_vars <;> first | decide | (constructor <;> intro hh <;> simp_all)

/-- C7 (corrected): for a frame pose containing both shoulders and both hips,
`rotationDiff` returns a value in [0, 180]; and consistently swapping the
left/right labels on the shoulder pair and the hip pair leaves the result
unchanged PROVIDED the two shoulder positions differ and the two hip
positions differ (with a coincident pair the atan2 of a zero vector breaks
the symmetry). -/
theorem rotationDiff_range_and_swap (kps : List PoseKeypoint) (ls rs lh rh : PoseKeypoint)
    (hls : findKP LEFT_SHOULDER kps = some ls) (hrs : findKP RIGHT_SHOULDER kps = some rs)
    (hlh : findKP LEFT_HIP kps = some lh) (hrh : findKP RIGHT_HIP kps = some rh) :
    0 ≤ rotationDiff kps ∧ rotationDiff kps ≤ 180 ∧
    (¬(ls.x = rs.x ∧ ls.y = rs.y) → ¬(lh.x = rh.x ∧ lh.y = rh.y) →
      rotationDiff (kps.map swapLR) = rotationDiff kps) := by
  have hval : rotationDiff kps = normDiff (atan2deg (ls.y - rs.y) (ls.x - rs.x))
      (atan2deg (lh.y - rh.y) (lh.x - rh.x)) := by
    unfold rotationDiff
    rw [hls, hrs, hlh, hrh]
  obtain ⟨ha1, ha2⟩ := atan2deg_mem (ls.y - rs.y) (ls.x - rs.x)
  obtain ⟨hb1, hb2⟩ := atan2deg_mem (lh.y - rh.y) (lh.x - rh.x)
  obtain ⟨hr1, hr2⟩ := normDiff_mem _ _ ha1 ha2 hb1 hb2
  refine ⟨hval ▸ hr1, hval ▸ hr2, ?_⟩
  intro hsh hhp
  have hval' : rotationDiff (kps.map swapLR) =
      normDiff (atan2deg (rs.y - ls.y) (rs.x - ls.x))
        (atan2deg (rh.y - lh.y) (rh.x - lh.x)) := by
    unfold rotationDiff
    rw [findKP_map_swapLR LEFT_SHOULDER RIGHT_SHOULDER swapLRName_to_ls kps, hrs,
      findKP_map_swapLR RIGHT_SHOULDER LEFT_SHOULDER swapLRName_to_rs kps, hls,
      findKP_map_swapLR LEFT_HIP RIGHT_HIP swapLRName_to_lh kps, hrh,
      findKP_map_swapLR RIGHT_HIP LEFT_HIP swapLRName_to_rh kps, hlh]
    simp only [Option.map_some', swapLR]
  rw [hval, hval', show rs.y - ls.y = -(ls.y - rs.y) from by ring,
    show rs.x - ls.x = -(ls.x - rs.x) from by ring,
    show rh.y - lh.y = -(lh.y - rh.y) from by ring,
    show rh.x - lh.x = -(lh.x - rh.x) from by ring]
  refine normDiff_atan2_negs _ _ _ _ ?_ ?_
  · rintro ⟨hu, hv⟩
    exact hsh ⟨by linarith, by linarith⟩
  · rintro ⟨hu, hv⟩
    exact hhp ⟨by linarith, by linarith⟩

/-- C7 witness: a nondegenerate frame with shoulders apart and hips apart. -/
theorem rotationDiff_range_and_swap_witness :
    0 ≤ rotationDiff squareFrame ∧ rotationDiff squareFrame ≤ 180 ∧
    rotationDiff (squareFrame.map swapLR) = rotationDiff squareFrame := by
  have h := rotationDiff_range_and_swap squareFrame ⟨LEFT_SHOULDER, 0, 0, 1⟩
    ⟨RIGHT_SHOULDER, 10, 0, 1⟩ ⟨LEFT_HIP, 0, 10, 1⟩ ⟨RIGHT_HIP, 10, 10, 1⟩ rfl rfl rfl rfl
  exact ⟨h.1, h.2.1, h.2.2 (by norm_num) (by norm_num)⟩

/-- The argument of 1 + i. -/
theorem arg_one_one : Complex.arg ⟨1, 1⟩ = Real.pi / 4 := by
  have hs : Real.sqrt 2 * (Real.sqrt 2 / 2) = 1 := by
    rw [show Real.sqrt 2 * (Real.sqrt 2 / 2) = Real.sqrt 2 * Real.sqrt 2 / 2 from by ring,
      Real.mul_self_sqrt (by norm_num)]
    norm_num
  have hcre : (Complex.cos ((Real.pi/4 : ℝ) : ℂ)).re = Real.sqrt 2 / 2 := by
    rw [Complex.cos_ofReal_re, Real.cos_pi_div_four]
  have hcim : (Complex.cos ((Real.pi/4 : ℝ) : ℂ)).im = 0 := Complex.cos_ofReal_im _
  have hsre : (Complex.sin ((Real.pi/4 : ℝ) : ℂ)).re = Real.sqrt 2 / 2 := by
    rw [Complex.sin_ofReal_re, Real.sin_pi_div_four]
  have hsim : (Complex.sin ((Real.pi/4 : ℝ) : ℂ)).im = 0 := Complex.sin_ofReal_im _
  have h : (⟨1, 1⟩ : ℂ) = (Real.sqrt 2 : ℝ) *
      (Complex.cos ((Real.pi/4 : ℝ) : ℂ) + Complex.sin ((Real.pi/4 : ℝ) : ℂ) * Complex.I) := by
    apply Complex.ext <;>
      simp only [Complex.mul_re, Complex.mul_im, Complex.add_re, Complex.add_im,
        Complex.ofReal_re, Complex.ofReal_im, Complex.I_re, Complex.I_im,
        hcre, hcim, hsre, hsim] <;>
      ring_nf <;> nlinarith [hs]
  rw [h, Complex.arg_mul_cos_add_sin_mul_I (by positivity)
    ⟨by linarith [Real.pi_pos], by linarith [Real.pi_pos]⟩]

/-- C7 counterexample to the claim as stated: with both shoulders at the same
point, the shoulder-line atan2 is 0 both before and after the label swap,
while the hip-line angle flips by 180°, so the rotation differential changes
(here from 45 to 135). -/
theorem rotationDiff_swap_cex :
    (findKP LEFT_SHOULDER degenerateFrame).isSome = true ∧
    (findKP RIGHT_SHOULDER degenerateFrame).isSome = true ∧
    (findKP LEFT_HIP degenerateFrame).isSome = true ∧
    (findKP RIGHT_HIP degenerateFrame).isSome = true ∧
    rotationDiff (degenerateFrame.map swapLR) ≠ rotationDiff degenerateFrame := by
  have hz : atan2deg 0 0 = 0 := by
    unfold atan2deg
    rw [show (⟨0, 0⟩ : ℂ) = 0 from by apply Complex.ext <;> simp, Complex.arg_zero, zero_mul]
  have hπ := Real.pi_pos
  have h45 : atan2deg 1 1 = 45 := by
    unfold atan2deg
    rw [arg_one_one]
    field_simp
    ring
  have hneg135 : atan2deg (-1) (-1) = -135 := by
    unfold atan2deg
    rw [show (⟨-1, -1⟩ : ℂ) = -(⟨1, 1⟩ : ℂ) from by apply Complex.ext <;> simp,
      Complex.arg_neg_eq_arg_sub_pi_of_im_pos (by norm_num : (0 : ℝ) < (⟨1, 1⟩ : ℂ).im),
      arg_one_one]
    field_simp
    ring
  have horig : rotationDiff degenerateFrame = 45 := by
    unfold rotationDiff
    rw [show findKP LEFT_SHOULDER degenerateFrame = some ⟨LEFT_SHOULDER, 0, 0, 1⟩ from rfl,
      show findKP RIGHT_SHOULDER degenerateFrame = some ⟨RIGHT_SHOULDER, 0, 0, 1⟩ from rfl,
      show findKP LEFT_HIP degenerateFrame = some ⟨LEFT_HIP, 1, 1, 1⟩ from rfl,
      show findKP RIGHT_HIP degenerateFrame = some ⟨RIGHT_HIP, 0, 0, 1⟩ from rfl]
    norm_num [hz, h45]
    unfold normDiff
    rw [show (0 : ℝ) - 45 = -45 from by norm_num, abs_of_neg (by norm_num : (-45 : ℝ) < 0)]
    norm_num
  have hmap : rotationDiff (degenerateFrame.map swapLR) = 135 := by
    unfold rotationDiff
    rw [show findKP LEFT_SHOULDER (degenerateFrame.map swapLR)
        = some ⟨LEFT_SHOULDER, 0, 0, 1⟩ from rfl,
      show findKP RIGHT_SHOULDER (degenerateFrame.map swapLR)
        = some ⟨RIGHT_SHOULDER, 0, 0, 1⟩ from rfl,
      show findKP LEFT_HIP (degenerateFrame.map swapLR) = some ⟨LEFT_HIP, 0, 0, 1⟩ from rfl,
      show findKP RIGHT_HIP (degenerateFrame.map swapLR) = some ⟨RIGHT_HIP, 1, 1, 1⟩ from rfl]
    norm_num [hz, hneg135]
    unfold normDiff
    rw [show (0 : ℝ) - -135 = 135 from by norm_num, abs_of_pos (by norm_num : (0 : ℝ) < 135)]
    norm_num
  exact ⟨rfl, rfl, rfl, rfl, by rw [horig, hmap]; norm_num⟩

end SurfSmart
